import Mathlib

/-!
Verification development for the vessel-game turn engine.

The engine lives in the repository's `useGameState` hook (the state-machine
closures: `loadCargo`, `returnCargo`, `unloadCargo`, `sail`, `nextTurn`,
`undoTurn`, `resetGame`, `useSupplyBoost`, `useDemandFreeze`, `useTeleport`)
together with the static configuration module (`gameConfig.ts`: initial
ports, routes, ships, demand tables, stock limits, and the supply
randomizer `generateRandomSupplyPerTurn`).

The embedding below is a direct shallow translation:
* JS numbers holding cargo stocks are rationals (production accrues in exact
  half-unit increments, so JS float arithmetic is exact and agrees with `ℚ`);
  cargo quantities, city stocks and scores are integers.
* The `ports` record is a total function from the 21 port identifiers;
  JSON `deepCopy` is the identity under value semantics.
* React state updates become explicit state-passing: each closure becomes a
  pure function `GameState → ...`; the history kept in `stateHistory`
  becomes an explicit `List GameState` threaded beside the state.
* `Date.now()`-based debouncing becomes explicit `now`/`lastLoadTime`
  integer parameters on the two debounced wrappers.
* `Math.random()` draws in the supply randomizer become an explicit stream
  of drawn indices.
Display-only fields never read by the engine (`name`, `position`) are
omitted; `nameJp` is kept because log messages embed it.
-/

namespace VesselGame

/-- Cargo colors (`CargoColor` in `types/game.ts`). -/
inductive CargoColor
  | red
  | blue
  | yellow
  | green
deriving DecidableEq, Fintype

/-- Port identifiers (`PortId`), the 21 keys of `INITIAL_PORTS`. -/
inductive PortId
  | TKO | SAP | MYZ | KYT
  | OKN | RUS | KOR | TAW | VNM | PHL | HKG | GUM | PLW | IDN | PNG | OGS | MTR | SGP | SKH | AUS | BGD
deriving DecidableEq, Fintype

/-- Port categories (`PortType`). -/
inductive PortType
  | supply
  | demand
deriving DecidableEq

/-- Ship classes (`ShipType`). -/
inductive ShipType
  | large
  | medium
  | small
deriving DecidableEq

/-- Ship status (`ShipStatus`). -/
inductive ShipStatus
  | docked
  | sailing
deriving DecidableEq

/-- Game status (`GameStatus`). -/
inductive GameStatus
  | playing
  | gameover
  | cleared
deriving DecidableEq

/-- Item identifiers (`ItemType`). -/
inductive ItemType
  | supplyBoost
  | demandFreeze
  | teleport
deriving DecidableEq

/-- Log entry categories (the `type` field of `GameLogEntry`). -/
inductive LogType
  | info
  | warning
  | success
  | danger
deriving DecidableEq

/-- Build a per-color rational table from four literals, mirroring the TS
object literals `{ red: _, blue: _, yellow: _, green: _ }`. -/
def cMap (r b y g : ℚ) : CargoColor → ℚ
  | .red => r
  | .blue => b
  | .yellow => y
  | .green => g

/-- A port (`Port` in `types/game.ts`); `name` and `position` are
display-only metadata the engine never reads and are omitted. -/
structure Port where
  id : PortId
  nameJp : String
  type : PortType
  cargoStock : CargoColor → ℚ
  demandColor : Option CargoColor := none
  supplyPerTurn : Option (CargoColor → ℚ) := none

/-- A route (`Route`): an undirected unit-distance edge. The TS fields are
`from`/`to`; both are reserved tokens in Lean, hence the underscores. -/
structure Route where
  from_ : PortId
  to_ : PortId
  distance : ℤ
deriving DecidableEq

/-- One cargo manifest entry (`ShipCargo`). -/
structure ShipCargo where
  color : CargoColor
  quantity : ℤ
deriving DecidableEq

/-- A ship (`Ship`). -/
structure Ship where
  id : String
  type : ShipType
  name : String
  capacity : ℤ
  speed : ℕ
  maxColors : ℕ
  status : ShipStatus
  currentPort : Option PortId := none
  cargo : List ShipCargo := []
  sailingFrom : Option PortId := none
  sailingTo : Option PortId := none
  remainingTurns : Option ℤ := none
  totalTurns : Option ℤ := none
deriving DecidableEq

/-- A demand-port inventory record (`CityInventory`). -/
structure CityInventory where
  portId : PortId
  color : CargoColor
  stock : ℤ
deriving DecidableEq

/-- A one-shot item (`GameItem`). -/
structure GameItem where
  id : ItemType
  name : String
  description : String
  used : Bool
deriving DecidableEq

/-- A log entry (`GameLogEntry`). -/
structure GameLogEntry where
  turn : ℕ
  message : String
  type : LogType
deriving DecidableEq

/-- The aggregate game state (`GameState`). -/
structure GameState where
  turn : ℕ
  maxTurns : ℕ
  status : GameStatus
  demandLevel : ℕ
  ports : PortId → Port
  ships : List Ship
  cityInventories : List CityInventory
  routes : List Route
  logs : List GameLogEntry
  score : ℤ
  items : List GameItem
  demandFrozenThisTurn : Bool

/-! ## Static configuration (`gameConfig.ts`) -/

/-- The initial port table (`INITIAL_PORTS`). -/
def INITIAL_PORTS : PortId → Port
  | .TKO => { id := .TKO, nameJp := "東京", type := .demand,
              cargoStock := cMap 0 0 0 0, demandColor := some .red }
  | .SAP => { id := .SAP, nameJp := "札幌", type := .demand,
              cargoStock := cMap 0 0 0 0, demandColor := some .blue }
  | .MYZ => { id := .MYZ, nameJp := "宮崎", type := .demand,
              cargoStock := cMap 0 0 0 0, demandColor := some .yellow }
  | .KYT => { id := .KYT, nameJp := "京都", type := .demand,
              cargoStock := cMap 0 0 0 0, demandColor := some .green }
  | .OKN => { id := .OKN, nameJp := "沖縄", type := .supply,
              cargoStock := cMap 0 1 0 0, supplyPerTurn := some (cMap 0 0.5 0 0) }
  | .RUS => { id := .RUS, nameJp := "ロシア", type := .supply,
              cargoStock := cMap 0 1 1 0, supplyPerTurn := some (cMap 0 0.5 0.5 0) }
  | .KOR => { id := .KOR, nameJp := "韓国", type := .supply,
              cargoStock := cMap 1 1 0 0, supplyPerTurn := some (cMap 0.5 0.5 0 0) }
  | .TAW => { id := .TAW, nameJp := "台湾", type := .supply,
              cargoStock := cMap 1 1 0 0, supplyPerTurn := some (cMap 0.5 0.5 0 0) }
  | .VNM => { id := .VNM, nameJp := "ベトナム", type := .supply,
              cargoStock := cMap 0 0 0 1, supplyPerTurn := some (cMap 0 0 0 0.5) }
  | .PHL => { id := .PHL, nameJp := "フィリピン", type := .supply,
              cargoStock := cMap 1 0 0 1, supplyPerTurn := some (cMap 0.5 0 0 0.5) }
  | .HKG => { id := .HKG, nameJp := "香港", type := .supply,
              cargoStock := cMap 1 0 1 0, supplyPerTurn := some (cMap 0.5 0 0.5 0) }
  | .GUM => { id := .GUM, nameJp := "グアム", type := .supply,
              cargoStock := cMap 0 1 0 0, supplyPerTurn := some (cMap 0 0.5 0 0) }
  | .PLW => { id := .PLW, nameJp := "パラオ", type := .supply,
              cargoStock := cMap 0 1 1 0, supplyPerTurn := some (cMap 0 0.5 0.5 0) }
  | .IDN => { id := .IDN, nameJp := "インドネシア", type := .supply,
              cargoStock := cMap 2 1 0 0, supplyPerTurn := some (cMap 1 0.5 0 0) }
  | .PNG => { id := .PNG, nameJp := "パプアニューギニア", type := .supply,
              cargoStock := cMap 0 0 0 1, supplyPerTurn := some (cMap 0 0 0 0.5) }
  | .OGS => { id := .OGS, nameJp := "小笠原", type := .supply,
              cargoStock := cMap 1 0 0 0, supplyPerTurn := some (cMap 0.5 0 0 0) }
  | .MTR => { id := .MTR, nameJp := "南鳥島", type := .supply,
              cargoStock := cMap 0 0 0 1, supplyPerTurn := some (cMap 0 0 0 0.5) }
  | .SGP => { id := .SGP, nameJp := "シンガポール", type := .supply,
              cargoStock := cMap 0 0 0 1, supplyPerTurn := some (cMap 0 0 0 0.5) }
  | .SKH => { id := .SKH, nameJp := "樺太", type := .supply,
              cargoStock := cMap 1 0 2 0, supplyPerTurn := some (cMap 0.5 0 1 0) }
  | .AUS => { id := .AUS, nameJp := "オーストラリア", type := .supply,
              cargoStock := cMap 0 2 0 2, supplyPerTurn := some (cMap 0 1 0 1) }
  | .BGD => { id := .BGD, nameJp := "バングラデシュ", type := .supply,
              cargoStock := cMap 0 1 0 2, supplyPerTurn := some (cMap 0 0.5 0 1) }

/-- The route table (`ROUTES`), all of distance 1. -/
def ROUTES : List Route :=
  [ ⟨.RUS, .SAP, 1⟩, ⟨.RUS, .KYT, 1⟩, ⟨.KOR, .SAP, 1⟩, ⟨.KOR, .MYZ, 1⟩,
    ⟨.KOR, .KYT, 1⟩, ⟨.TAW, .MYZ, 1⟩, ⟨.TAW, .OKN, 1⟩, ⟨.PHL, .OKN, 1⟩,
    ⟨.TKO, .SAP, 1⟩, ⟨.TKO, .OKN, 1⟩, ⟨.MYZ, .TKO, 1⟩, ⟨.MYZ, .OKN, 1⟩,
    ⟨.SAP, .KYT, 1⟩,
    ⟨.OGS, .TKO, 1⟩,
    ⟨.RUS, .KOR, 1⟩, ⟨.KOR, .TAW, 1⟩, ⟨.HKG, .TAW, 1⟩, ⟨.HKG, .VNM, 1⟩,
    ⟨.TAW, .PHL, 1⟩, ⟨.TAW, .VNM, 1⟩, ⟨.PHL, .VNM, 1⟩,
    ⟨.OKN, .OGS, 1⟩, ⟨.OGS, .GUM, 1⟩, ⟨.GUM, .PLW, 1⟩, ⟨.GUM, .PHL, 1⟩,
    ⟨.PLW, .PHL, 1⟩, ⟨.PLW, .PNG, 1⟩, ⟨.IDN, .PNG, 1⟩, ⟨.IDN, .PHL, 1⟩,
    ⟨.MTR, .SAP, 1⟩, ⟨.MTR, .OGS, 1⟩, ⟨.MTR, .GUM, 1⟩,
    ⟨.SGP, .VNM, 1⟩, ⟨.SGP, .IDN, 1⟩,
    ⟨.SKH, .SAP, 1⟩, ⟨.SKH, .RUS, 1⟩,
    ⟨.AUS, .PNG, 1⟩, ⟨.AUS, .IDN, 1⟩,
    ⟨.BGD, .VNM, 1⟩, ⟨.BGD, .SGP, 1⟩ ]

/-- The initial ship roster (`INITIAL_SHIPS`). -/
def INITIAL_SHIPS : List Ship :=
  [ { id := "large", type := .large, name := "大型船", capacity := 24, speed := 1,
      maxColors := 2, status := .docked, currentPort := some .TKO, cargo := [] },
    { id := "medium", type := .medium, name := "中型船", capacity := 18, speed := 2,
      maxColors := 2, status := .docked, currentPort := some .SAP, cargo := [] },
    { id := "small", type := .small, name := "小型船", capacity := 12, speed := 3,
      maxColors := 1, status := .docked, currentPort := some .MYZ, cargo := [] } ]

/-- Initial demand-port inventories (`INITIAL_CITY_INVENTORIES`), all 20. -/
def INITIAL_CITY_INVENTORIES : List CityInventory :=
  [ ⟨.TKO, .red, 20⟩, ⟨.SAP, .blue, 20⟩, ⟨.MYZ, .yellow, 20⟩, ⟨.KYT, .green, 20⟩ ]

/-- One row of the demand table (`DemandTable`). -/
structure DemandTable where
  level : ℕ
  turnRangeLo : ℕ
  turnRangeHi : ℕ
  demand : PortId → ℤ

/-- Level-1 per-port demand (turns 1-10). -/
def demandLevel1 : PortId → ℤ
  | .TKO => 2 | .SAP => 2 | .MYZ => 1 | .KYT => 1 | _ => 0

/-- Level-2 per-port demand (turns 11-20). -/
def demandLevel2 : PortId → ℤ
  | .TKO => 3 | .SAP => 3 | .MYZ => 2 | .KYT => 2 | _ => 0

/-- Level-3 per-port demand (turns 21-30). -/
def demandLevel3 : PortId → ℤ
  | .TKO => 4 | .SAP => 4 | .MYZ => 3 | .KYT => 3 | _ => 0

/-- The demand table (`DEMAND_TABLES`). -/
def DEMAND_TABLES : List DemandTable :=
  [ ⟨1, 1, 10, demandLevel1⟩, ⟨2, 11, 20, demandLevel2⟩, ⟨3, 21, 30, demandLevel3⟩ ]

/-- Global game configuration (`GAME_CONFIG`). -/
structure GameConfig where
  maxTurns : ℕ
  demandLevelUpTurns : List ℕ

/-- `GAME_CONFIG`: 30 turns, level-ups at turns 11 and 21. -/
def GAME_CONFIG : GameConfig := ⟨30, [11, 21]⟩

/-- Per-port supply stock caps (`SUPPLY_STOCK_LIMITS` in `gameConfig.ts`):
`none` models the `Infinity` entries of the four demand ports. This table is
declared in the configuration module; the turn engine's production phase in
the `useGameState` hook uses its own uniform constant instead (see
`SUPPLY_STOCK_LIMIT` below). -/
def SUPPLY_STOCK_LIMITS : PortId → Option ℚ
  | .TKO => none | .SAP => none | .MYZ => none | .KYT => none
  | .RUS => some 6 | .KOR => some 6 | .OKN => some 6 | .OGS => some 6
  | .TAW => some 6 | .MTR => some 6
  | .SKH => some 8 | .HKG => some 8 | .PHL => some 8 | .GUM => some 8
  | .BGD => some 10 | .VNM => some 10 | .SGP => some 10 | .IDN => some 10
  | .AUS => some 10 | .PNG => some 10 | .PLW => some 10

/-- Demand level for a turn (`getDemandLevel`, non-endless branch). -/
def getDemandLevel (turn : ℕ) : ℕ :=
  if turn ≤ 10 then 1 else if turn ≤ 20 then 2 else 3

/-- Per-turn per-port demand (`getDemandForTurn`): table lookup by level,
defaulting to 0 when no row matches. -/
def getDemandForTurn (turn : ℕ) (portId : PortId) : ℤ :=
  match DEMAND_TABLES.find? (fun t => t.level == getDemandLevel turn) with
  | some t => t.demand portId
  | none => 0

/-- The initial item list (`INITIAL_ITEMS` in the hook). -/
def INITIAL_ITEMS : List GameItem :=
  [ ⟨.supplyBoost, "緊急生産", "供給拠点1つの在庫を満タンに", false⟩,
    ⟨.demandFreeze, "特別休日", "1ターン需要消費を停止", false⟩,
    ⟨.teleport, "瞬間移動", "船1隻を任意の港へ移動", false⟩ ]

/-- The freshly initialized game state (`createInitialGameState`). -/
def createInitialGameState : GameState :=
  { turn := 1
    maxTurns := GAME_CONFIG.maxTurns
    status := .playing
    demandLevel := 1
    ports := INITIAL_PORTS
    ships := INITIAL_SHIPS
    cityInventories := INITIAL_CITY_INVENTORIES
    routes := ROUTES
    logs := [⟨0, "ゲーム開始！30ターン生き残れ！", .info⟩]
    score := 0
    items := INITIAL_ITEMS
    demandFrozenThisTurn := false }

/-! ## World graph (`getDirectAdjacentPorts`, `getReachablePorts`,
`getAdjacentPorts`) -/

/-- Ports one edge away (`getDirectAdjacentPorts`): scan every route, pushing
`to` when `from` matches and `from` when `to` matches, in route order. -/
def getDirectAdjacentPorts (routes : List Route) (portId : PortId) : List PortId :=
  routes.foldl
    (fun acc route =>
      let acc := if route.from_ = portId then acc ++ [route.to_] else acc
      if route.to_ = portId then acc ++ [route.from_] else acc)
    []

/-- One BFS level of `getReachablePorts`: expand every node of the current
level, recording newly visited nodes into `visited`, `reachable` and the next
level, in discovery order. -/
def reachLevel (routes : List Route)
    (st : List PortId × List PortId × List PortId) :
    List PortId × List PortId × List PortId :=
  let (visited, reachable, currentLevel) := st
  currentLevel.foldl
    (fun st current =>
      (getDirectAdjacentPorts routes current).foldl
        (fun st adj =>
          let (v, r, nl) := st
          if adj ∈ v then (v, r, nl) else (v ++ [adj], r ++ [adj], nl ++ [adj]))
        st)
    (visited, reachable, [])

/-- The `for edge = 1..maxEdges` loop of `getReachablePorts`, as fuel
recursion over the remaining edge budget. -/
def reachLoop (routes : List Route) :
    ℕ → List PortId × List PortId × List PortId → List PortId × List PortId × List PortId
  | 0, st => st
  | n + 1, st => reachLoop routes n (reachLevel routes st)

/-- Ports reachable within `maxEdges` edges, excluding the origin
(`getReachablePorts`): level-by-level BFS seeded with the origin visited. -/
def getReachablePorts (routes : List Route) (portId : PortId) (maxEdges : ℕ) :
    List PortId :=
  (reachLoop routes maxEdges ([portId], [], [portId])).2.1

/-- Ports a ship can move to (`getAdjacentPorts`): reachability within the
ship's speed, defaulting to 1 edge when no ship is supplied. -/
def getAdjacentPorts (routes : List Route) (portId : PortId) (ship : Option Ship) :
    List PortId :=
  getReachablePorts routes portId (match ship with | some s => s.speed | none => 1)

/-- Distance of a direct route between two ports (`getRouteDistance`). -/
def getRouteDistance (routes : List Route) (a b : PortId) : Option ℤ :=
  match routes.find? (fun r => (r.from_ == a && r.to_ == b) || (r.from_ == b && r.to_ == a)) with
  | some r => some r.distance
  | none => none

/-! ## Cargo transaction layer (`loadCargo`, `returnCargo`, `unloadCargo`) -/

/-- `Math.min` on rationals, as an explicit comparison (kernel-reducible,
and provably equal to `min`). -/
def ratMin (a b : ℚ) : ℚ := if a ≤ b then a else b

/-- `Math.floor` on rationals (kernel-reducible, and provably equal to
`Int.floor`). -/
def ratFloor (q : ℚ) : ℤ := q.num / (q.den : ℤ)

/-- Japanese color names used in the load log message. -/
def colorNameJp : CargoColor → String
  | .red => "赤"
  | .blue => "青"
  | .yellow => "黄"
  | .green => "緑"

/-- Total loaded quantity of a ship (`ship.cargo.reduce((sum, c) => sum + c.quantity, 0)`). -/
def cargoSum (cargo : List ShipCargo) : ℤ :=
  (cargo.map (fun c => c.quantity)).sum

/-- The set of colors aboard (`new Set(ship.cargo.map(c => c.color))`). -/
def cargoColors (cargo : List ShipCargo) : Finset CargoColor :=
  (cargo.map (fun c => c.color)).toFinset

/-- Update one port's stock of one color in the port record. -/
def updatePortStock (ports : PortId → Port) (pid : PortId) (color : CargoColor)
    (f : ℚ → ℚ) : PortId → Port :=
  fun q =>
    if q = pid then
      let p := ports pid
      { p with cargoStock := fun c => if c = color then f (p.cargoStock c) else p.cargoStock c }
    else ports q

/-- Add `quantity` to the first manifest entry of `color` (the mutation of
`existingCargo.quantity += quantity` on the found entry). -/
def bumpFirstCargo : List ShipCargo → CargoColor → ℤ → List ShipCargo
  | [], _, _ => []
  | e :: rest, color, q =>
    if e.color = color then { e with quantity := e.quantity + q } :: rest
    else e :: bumpFirstCargo rest color q

/-- New manifest after a load: bump the existing entry of this color if one
exists, else push a fresh `{ color, quantity }` entry at the end. -/
def addCargo (cargo : List ShipCargo) (color : CargoColor) (q : ℤ) : List ShipCargo :=
  if cargo.any (fun c => c.color == color) then bumpFirstCargo cargo color q
  else cargo ++ [⟨color, q⟩]

/-- The `setGameState` updater of `loadCargo`: all domain checks and the
state mutation, without the time-based debounce of the wrapper. -/
def loadCargoUpdate (prev : GameState) (shipId : String) (color : CargoColor)
    (quantity : ℤ) : GameState :=
  match prev.ships.find? (fun s => s.id == shipId) with
  | none => prev
  | some ship =>
    if ship.status = ShipStatus.docked then
      match ship.currentPort with
      | none => prev
      | some cp =>
        let port := prev.ports cp
        let availableStock : ℤ := ratFloor (port.cargoStock color)
        if availableStock < quantity then prev
        else
          let currentLoad := cargoSum ship.cargo
          if currentLoad + quantity > ship.capacity then prev
          else
            let currentColors := cargoColors ship.cargo
            if color ∉ currentColors ∧ currentColors.card ≥ ship.maxColors then prev
            else
              { prev with
                ports := updatePortStock prev.ports cp color (fun x => x - quantity)
                ships := prev.ships.map (fun s =>
                  if s.id == shipId then { s with cargo := addCargo s.cargo color quantity }
                  else s)
                logs := prev.logs ++
                  [⟨prev.turn,
                    ship.name ++ "が" ++ colorNameJp color ++ "貨物を" ++
                      toString quantity ++ "個積み込みました", .info⟩] }
    else prev

/-- The debounced `loadCargo` wrapper: calls within 100 ms of the previous
load/return trigger are dropped and report `false`; otherwise the updater
runs and the wrapper reports `true` unconditionally. Returns the new state,
the reported Boolean, and the new `lastLoadTimeRef` value. -/
def loadCargo (now lastLoadTime : ℤ) (prev : GameState) (shipId : String)
    (color : CargoColor) (quantity : ℤ) : GameState × Bool × ℤ :=
  if now - lastLoadTime < 100 then (prev, false, lastLoadTime)
  else (loadCargoUpdate prev shipId color quantity, true, now)

/-- Decrement the first manifest entry of `color` by one. -/
def decFirstCargo : List ShipCargo → CargoColor → List ShipCargo
  | [], _ => []
  | e :: rest, color =>
    if e.color = color then { e with quantity := e.quantity - 1 } :: rest
    else e :: decFirstCargo rest color

/-- A ship after returning one unit of `color`: decrement the first matching
entry; if it drops to zero or below, drop all non-positive entries. -/
def returnCargoShip (s : Ship) (color : CargoColor) : Ship :=
  match s.cargo.find? (fun c => c.color == color) with
  | none => s
  | some e =>
    let newCargo := decFirstCargo s.cargo color
    if e.quantity - 1 ≤ 0 then { s with cargo := newCargo.filter (fun c => 0 < c.quantity) }
    else { s with cargo := newCargo }

/-- The `setGameState` updater of `returnCargo` together with its `success`
flag: one unit goes back to the supply port the ship is docked at. -/
def returnCargoUpdate (prev : GameState) (shipId : String) (color : CargoColor) :
    GameState × Bool :=
  match prev.ships.find? (fun s => s.id == shipId) with
  | none => (prev, false)
  | some ship =>
    if ship.status = ShipStatus.docked then
      match ship.currentPort with
      | none => (prev, false)
      | some cp =>
        if (prev.ports cp).type ≠ PortType.supply then (prev, false)
        else if ship.cargo.find? (fun c => c.color == color) = none then (prev, false)
        else
          ({ prev with
              ports := updatePortStock prev.ports cp color (fun x => x + 1)
              ships := prev.ships.map (fun s =>
                if s.id == shipId then returnCargoShip s color else s) },
            true)
    else (prev, false)

/-- The debounced `returnCargo` wrapper (50 ms window on the shared
`lastLoadTimeRef`). -/
def returnCargo (now lastLoadTime : ℤ) (prev : GameState) (shipId : String)
    (color : CargoColor) : GameState × Bool × ℤ :=
  if now - lastLoadTime < 50 then (prev, false, lastLoadTime)
  else
    let (s, ok) := returnCargoUpdate prev shipId color
    (s, ok, now)

/-- The `setGameState` updater of `unloadCargo`: at a demand port, move the
whole manifest entry of the port's consumed color into its city inventory,
credit the score, and leave every other color aboard. -/
def unloadCargoUpdate (prev : GameState) (shipId : String) : GameState :=
  match prev.ships.find? (fun s => s.id == shipId) with
  | none => prev
  | some ship =>
    if ship.status = ShipStatus.docked then
      match ship.currentPort with
      | none => prev
      | some cp =>
        let port := prev.ports cp
        match port.demandColor with
        | none => prev
        | some dc =>
          if port.type ≠ PortType.demand then prev
          else if ship.cargo.length = 0 then prev
          else
            match ship.cargo.find? (fun c => c.color == dc) with
            | none => prev
            | some cargoForCity =>
              { prev with
                cityInventories := prev.cityInventories.map (fun inv =>
                  if inv.portId ≠ cp ∨ inv.color ≠ dc then inv
                  else { inv with stock := inv.stock + cargoForCity.quantity })
                ships := prev.ships.map (fun s =>
                  if s.id == shipId then
                    { s with cargo := s.cargo.filter (fun c => ¬(c.color = dc)) }
                  else s)
                score := prev.score + cargoForCity.quantity
                logs := prev.logs ++
                  [⟨prev.turn,
                    ship.name ++ "が" ++ port.nameJp ++ "で" ++
                      toString cargoForCity.quantity ++ "個の貨物を荷下ろししました",
                    .success⟩] }
    else prev

/-! ## Movement (`sail`) -/

/-- `sail(shipId, destination)`: valid only for a docked ship whose
reachability set (speed-bounded BFS) contains the destination; on success the
ship starts sailing with remaining turns fixed at 1 (`travelTime = 1`
regardless of the number of edges covered). Returns the new state and the
reported Boolean. -/
def sail (prev : GameState) (shipId : String) (destination : PortId) :
    GameState × Bool :=
  match prev.ships.find? (fun s => s.id == shipId) with
  | none => (prev, false)
  | some ship =>
    if ship.status ≠ ShipStatus.docked then (prev, false)
    else
      match ship.currentPort with
      | none => (prev, false)
      | some cp =>
        if destination ∉ getAdjacentPorts prev.routes cp (some ship) then (prev, false)
        else
          let travelTime : ℤ := 1
          ({ prev with
              ships := prev.ships.map (fun s =>
                if s.id == shipId then
                  { s with
                    status := ShipStatus.sailing
                    sailingFrom := s.currentPort
                    sailingTo := some destination
                    currentPort := none
                    remainingTurns := some travelTime
                    totalTurns := some travelTime }
                else s)
              logs := prev.logs ++
                [⟨prev.turn,
                  ship.name ++ "が" ++ (prev.ports destination).nameJp ++
                    "に向けて出港しました（" ++ toString travelTime ++ "ターン）", .info⟩] },
            true)

/-! ## Turn engine (`nextTurn`) -/

/-- Outcome of the demand-consumption phase: either every inventory survived
(updated inventories plus warning logs) or some inventory went negative
(inventories as mutated up to and including the failing one, plus the logs
accumulated up to and including the game-over entry). -/
inductive DemandOutcome
  | ok (invs : List CityInventory) (logs : List GameLogEntry)
  | fail (invs : List CityInventory) (logs : List GameLogEntry)

/-- The demand-consumption loop of `nextTurn`, phase 1: subtract each city's
per-turn demand in list order; the first inventory dropping below zero aborts
the phase with a danger log, leaving later inventories untouched; stocks at 5
or below emit warnings. -/
def demandPhase (t : ℕ) (ports : PortId → Port) :
    List CityInventory → DemandOutcome
  | [] => .ok [] []
  | inv :: rest =>
    let demand := getDemandForTurn t inv.portId
    let inv2 : CityInventory := { inv with stock := inv.stock - demand }
    if inv2.stock < 0 then
      .fail (inv2 :: rest)
        [⟨t, (ports inv.portId).nameJp ++ "の在庫が枯渇しました！ゲームオーバー", .danger⟩]
    else
      let warnLogs : List GameLogEntry :=
        if inv2.stock ≤ 5 then
          [⟨t, "警告: " ++ (ports inv.portId).nameJp ++ "の在庫が残り" ++
            toString inv2.stock ++ "です！", .warning⟩]
        else []
      match demandPhase t ports rest with
      | .ok invs logs => .ok (inv2 :: invs) (warnLogs ++ logs)
      | .fail invs logs => .fail (inv2 :: invs) (warnLogs ++ logs)

/-- The per-ship update of the arrival phase, ignoring inventories: a sailing
ship's remaining turns drop by one; at zero it docks at its destination and
clears its sailing fields (and, at a demand port, drops the consumed color —
the inventory/score/log effects are handled by `arriveOne`). -/
def shipArrive (ports : PortId → Port) (ship : Ship) : Ship :=
  if ship.status = ShipStatus.sailing ∧ ship.remainingTurns ≠ none then
    let rem := (ship.remainingTurns.getD 0) - 1
    if rem ≤ 0 then
      let docked : Ship :=
        { ship with status := ShipStatus.docked, currentPort := ship.sailingTo }
      let afterUnload : Ship :=
        match ship.sailingTo with
        | none => docked
        | some dst =>
          let destPort := ports dst
          match destPort.demandColor with
          | none => docked
          | some dc =>
            if destPort.type = PortType.demand ∧ docked.cargo.length > 0 ∧
                (docked.cargo.find? (fun c => c.color == dc)).isSome then
              { docked with cargo := docked.cargo.filter (fun c => ¬(c.color = dc)) }
            else docked
      { afterUnload with
        sailingFrom := none, sailingTo := none,
        remainingTurns := none, totalTurns := none }
    else { ship with remainingTurns := some rem }
  else ship

/-- One iteration of the arrival loop (`for (const ship of newState.ships)`):
the updated ship, inventories, delivered-cargo counter and logs. The case
split mirrors the source; a sailing ship with no destination recorded would
crash the original on `ports[undefined]` and is modelled as docking with no
unload. -/
def arriveOne (ports : PortId → Port) (t : ℕ) (ship : Ship)
    (invs : List CityInventory) (delivered : ℤ) (logs : List GameLogEntry) :
    Ship × List CityInventory × ℤ × List GameLogEntry :=
  if ship.status = ShipStatus.sailing ∧ ship.remainingTurns ≠ none then
    let rem := (ship.remainingTurns.getD 0) - 1
    if rem ≤ 0 then
      match ship.sailingTo with
      | none => (shipArrive ports ship, invs, delivered, logs)
      | some dst =>
        let destPort := ports dst
        let arriveLogs := logs ++
          [⟨t, ship.name ++ "が" ++ destPort.nameJp ++ "に到着しました", .info⟩]
        match destPort.demandColor with
        | none => (shipArrive ports ship, invs, delivered, arriveLogs)
        | some dc =>
          if destPort.type = PortType.demand ∧ ship.cargo.length > 0 then
            match ship.cargo.find? (fun c => c.color == dc) with
            | none => (shipArrive ports ship, invs, delivered, arriveLogs)
            | some cargoForCity =>
              let invs2 :=
                if (invs.find? (fun i => i.portId == dst && i.color == dc)).isSome then
                  invs.map (fun i =>
                    if i.portId == dst && i.color == dc then
                      { i with stock := i.stock + cargoForCity.quantity }
                    else i)
                else invs
              let delivered2 :=
                if (invs.find? (fun i => i.portId == dst && i.color == dc)).isSome then
                  delivered + cargoForCity.quantity
                else delivered
              (shipArrive ports ship, invs2, delivered2,
                arriveLogs ++
                  [⟨t, ship.name ++ "が" ++ toString cargoForCity.quantity ++
                    "個の貨物を荷下ろししました", .success⟩])
          else (shipArrive ports ship, invs, delivered, arriveLogs)
    else (shipArrive ports ship, invs, delivered, logs)
  else (ship, invs, delivered, logs)

/-- The arrival-and-auto-unload loop of `nextTurn`, phase 2, over the whole
ship list. -/
def arrivalPhase (ports : PortId → Port) (t : ℕ) :
    List Ship → List CityInventory → ℤ → List GameLogEntry →
    List Ship × List CityInventory × ℤ × List GameLogEntry
  | [], invs, delivered, logs => ([], invs, delivered, logs)
  | ship :: rest, invs, delivered, logs =>
    let one := arriveOne ports t ship invs delivered logs
    let recur := arrivalPhase ports t rest one.2.1 one.2.2.1 one.2.2.2
    (one.1 :: recur.1, recur.2)

/-- The uniform per-color stock cap used by the hook's production phase and
by `useSupplyBoost` (`const SUPPLY_STOCK_LIMIT = 10`). -/
def SUPPLY_STOCK_LIMIT : ℚ := 10

/-- Phase 3 of `nextTurn`: every supply port with a production table gains
its per-color rate, clamped to `SUPPLY_STOCK_LIMIT`. -/
def productionPhase (ports : PortId → Port) : PortId → Port :=
  fun pid =>
    let port := ports pid
    match port.supplyPerTurn with
    | some rate =>
      if port.type = PortType.supply then
        { port with cargoStock := fun c => ratMin (port.cargoStock c + rate c) SUPPLY_STOCK_LIMIT }
      else port
    | none => port

/-- The `setGameState` updater of `nextTurn`: consumption, arrival,
production and bookkeeping in order; a no-op unless status is `playing`. -/
def nextTurnState (prev : GameState) : GameState :=
  if prev.status ≠ GameStatus.playing then prev
  else
    let demandLevel := getDemandLevel prev.turn
    let afterDemand : DemandOutcome :=
      if ¬prev.demandFrozenThisTurn then
        demandPhase prev.turn prev.ports prev.cityInventories
      else
        .ok prev.cityInventories
          [⟨prev.turn, "消費抑制により需要消費が停止しました", .success⟩]
    match afterDemand with
    | .fail invs dlogs =>
      { prev with
        status := GameStatus.gameover
        cityInventories := invs
        logs := prev.logs ++ dlogs }
    | .ok invs dlogs =>
      let arr := arrivalPhase prev.ports prev.turn prev.ships invs 0 dlogs
      let ports2 := productionPhase prev.ports
      let newTurn := prev.turn + 1
      let newDemandLevel := getDemandLevel newTurn
      let lvlLogs : List GameLogEntry :=
        if newDemandLevel > demandLevel then
          [⟨newTurn, "需要レベルが Lv" ++ toString newDemandLevel ++ " に上昇しました！", .warning⟩]
        else []
      if newTurn > GAME_CONFIG.maxTurns then
        { prev with
          ports := ports2
          ships := arr.1
          cityInventories := arr.2.1
          demandFrozenThisTurn := false
          turn := newTurn
          status := GameStatus.cleared
          demandLevel := newDemandLevel
          logs := prev.logs ++ arr.2.2.2 ++ lvlLogs ++
            [⟨newTurn, "30ターン生き残りました！ゲームクリア！", .success⟩]
          score := prev.score + arr.2.2.1 }
      else
        { prev with
          ports := ports2
          ships := arr.1
          cityInventories := arr.2.1
          demandFrozenThisTurn := false
          turn := newTurn
          demandLevel := newDemandLevel
          logs := prev.logs ++ arr.2.2.2 ++ lvlLogs
          score := prev.score + arr.2.2.1 }

/-- `nextTurn` as observed from outside the hook: the current state is pushed
onto the history (a deep copy, which is the identity under value semantics)
and then the turn transition runs. -/
def nextTurnPair (st : GameState × List GameState) : GameState × List GameState :=
  (nextTurnState st.1, st.2 ++ [st.1])

/-! ## History manager (`undoTurn`, `resetGame`) -/

/-- The log entry `undoTurn` appends to the restored snapshot. -/
def undoLogEntry (t : ℕ) : GameLogEntry :=
  ⟨t, "前のターンに戻りました", .info⟩

/-- `undoTurn`: with a nonempty history, pop the most recent snapshot, make
it current with an undo notification appended to its log, and report `true`;
with an empty history report `false` and change nothing. -/
def undoTurn (st : GameState × List GameState) : (GameState × List GameState) × Bool :=
  match st.2.getLast? with
  | none => (st, false)
  | some previousState =>
    (({ previousState with logs := previousState.logs ++ [undoLogEntry previousState.turn] },
      st.2.dropLast), true)

/-- `resetGame`: rebuild the initial state and clear the history. -/
def resetGame (_st : GameState × List GameState) : GameState × List GameState :=
  (createInitialGameState, [])

/-! ## Feasibility helpers (`getShipRemainingCapacity`, `canLoadColor`) -/

/-- Remaining capacity of a ship (`getShipRemainingCapacity`). -/
def getShipRemainingCapacity (ship : Ship) : ℤ :=
  ship.capacity - cargoSum ship.cargo

/-- Whether a ship may take another color aboard (`canLoadColor`). -/
def canLoadColor (ship : Ship) (color : CargoColor) : Bool :=
  if color ∈ cargoColors ship.cargo then true
  else decide ((cargoColors ship.cargo).card < ship.maxColors)

/-! ## Item subsystem (`useSupplyBoost`, `useDemandFreeze`, `useTeleport`) -/

/-- A port's production rate of a color, `0` when it has no production table
(the truthiness test `port.supplyPerTurn && port.supplyPerTurn[color] > 0`). -/
def rateOf (p : Port) (c : CargoColor) : ℚ :=
  match p.supplyPerTurn with
  | some r => r c
  | none => 0

/-- Whether the state's item of the given id is marked used (`false` when the
item record is missing, in which case every item action is already a no-op). -/
def itemUsed (s : GameState) (id : ItemType) : Bool :=
  match s.items.find? (fun i => i.id == id) with
  | some item => item.used
  | none => true

/-- `useSupplyBoost(portId)`: if the item is unused and the target is a
supply port, set every color it produces to `SUPPLY_STOCK_LIMIT` and mark the
item used; otherwise change nothing and report `false`. -/
def useSupplyBoost (prev : GameState) (portId : PortId) : GameState × Bool :=
  match prev.items.find? (fun i => i.id == ItemType.supplyBoost) with
  | none => (prev, false)
  | some item =>
    if item.used then (prev, false)
    else
      let port := prev.ports portId
      if port.type ≠ PortType.supply then (prev, false)
      else
        ({ prev with
            ports := fun pid =>
              if pid = portId then
                { port with cargoStock := fun c =>
                    if rateOf port c > 0 then SUPPLY_STOCK_LIMIT else port.cargoStock c }
              else prev.ports pid
            items := prev.items.map (fun i =>
              if i.id == ItemType.supplyBoost then { i with used := true } else i)
            logs := prev.logs ++
              [⟨prev.turn, "補給船団により" ++ port.nameJp ++ "の在庫が満タンになりました",
                .success⟩] },
          true)

/-- `useDemandFreeze()`: if unused, raise the frozen flag (suppressing the
next turn's demand phase) and mark the item used immediately. -/
def useDemandFreeze (prev : GameState) : GameState × Bool :=
  match prev.items.find? (fun i => i.id == ItemType.demandFreeze) with
  | none => (prev, false)
  | some item =>
    if item.used then (prev, false)
    else
      ({ prev with
          items := prev.items.map (fun i =>
            if i.id == ItemType.demandFreeze then { i with used := true } else i)
          demandFrozenThisTurn := true
          logs := prev.logs ++
            [⟨prev.turn, "消費抑制を発動！次のターン需要消費が停止します", .success⟩] },
        true)

/-- `useTeleport(shipId, destPortId)`: if unused and the ship exists, dock it
at the destination regardless of connectivity, discarding any sailing state,
and mark the item used. -/
def useTeleport (prev : GameState) (shipId : String) (destPortId : PortId) :
    GameState × Bool :=
  match prev.items.find? (fun i => i.id == ItemType.teleport) with
  | none => (prev, false)
  | some item =>
    if item.used then (prev, false)
    else
      match prev.ships.find? (fun s => s.id == shipId) with
      | none => (prev, false)
      | some ship =>
        ({ prev with
            ships := prev.ships.map (fun s =>
              if s.id == shipId then
                { s with
                  status := ShipStatus.docked
                  currentPort := some destPortId
                  sailingFrom := none
                  sailingTo := none
                  remainingTurns := none
                  totalTurns := none }
              else s)
            items := prev.items.map (fun i =>
              if i.id == ItemType.teleport then { i with used := true } else i)
            logs := prev.logs ++
              [⟨prev.turn, "緊急輸送により" ++ ship.name ++ "が" ++
                (prev.ports destPortId).nameJp ++ "へ移動しました", .success⟩] },
          true)

/-! ## Supply randomizer (`generateRandomSupplyPerTurn`) -/

/-- The supply port list `SUPPLY_PORT_IDS` of `gameConfig.ts`. -/
def SUPPLY_PORT_IDS : List PortId :=
  [.OKN, .RUS, .KOR, .TAW, .VNM, .PHL, .HKG, .GUM, .PLW, .IDN, .PNG, .OGS, .MTR, .SGP, .SKH, .AUS, .BGD]

/-- The color list `COLORS` of `gameConfig.ts`. -/
def COLORS : List CargoColor := [.red, .blue, .yellow, .green]

/-- A per-port per-color production table, total over all port ids; demand
ports (absent from the TS record) are held at zero and never touched. -/
def SupplyTable : Type := PortId → CargoColor → ℚ

/-- The fixed initial production table: the `supplyPerTurn` entries of
`INITIAL_PORTS` (zero rows for the demand ports). -/
def initialSupplyTable : SupplyTable :=
  fun p c => rateOf (INITIAL_PORTS p) c

/-- The hard-coded random-mode adjustments applied before any swap:
Singapore and Papua New Guinea trade their green 0.5 for yellow 0.5, and
Taiwan trades red 0.5 / blue 0.5 for red 1.0. -/
def adjustSupply (t : SupplyTable) : SupplyTable :=
  fun p c =>
    if p = PortId.SGP then cMap 0 0 0.5 0 c
    else if p = PortId.PNG then cMap 0 0 0.5 0 c
    else if p = PortId.TAW then cMap 1 0 0 0 c
    else t p c

/-- One batch of random draws for a swap attempt: two port indices into
`SUPPLY_PORT_IDS`, two color indices into `COLORS` (the redraw-while-equal
loops of the source always terminate with indices of these ranges), and the
coin used when both swap directions are admissible. -/
structure SwapChoice where
  p1Idx : Fin 17
  p2Idx : Fin 17
  c1Idx : Fin 4
  c2Idx : Fin 4
  coin : Bool

/-- The swap step size (`delta = 0.5`). -/
def swapDelta : ℚ := 0.5

/-- Number of colors with positive production in a row (`countColors`). -/
def countColors (row : CargoColor → ℚ) : ℕ :=
  (COLORS.filter (fun c => row c > 0)).length

/-- The positive-direction pair swap: `p1` trades `delta` of `c2` for `c1`
and `p2` trades `delta` of `c1` for `c2`. -/
def applyPos (t : SupplyTable) (p1 p2 : PortId) (c1 c2 : CargoColor) : SupplyTable :=
  fun p c =>
    t p c + (if p = p1 ∧ c = c1 then swapDelta else 0)
          - (if p = p1 ∧ c = c2 then swapDelta else 0)
          - (if p = p2 ∧ c = c1 then swapDelta else 0)
          + (if p = p2 ∧ c = c2 then swapDelta else 0)

/-- The negative-direction pair swap (the mirror image of `applyPos`). -/
def applyNeg (t : SupplyTable) (p1 p2 : PortId) (c1 c2 : CargoColor) : SupplyTable :=
  fun p c =>
    t p c - (if p = p1 ∧ c = c1 then swapDelta else 0)
          + (if p = p1 ∧ c = c2 then swapDelta else 0)
          + (if p = p2 ∧ c = c1 then swapDelta else 0)
          - (if p = p2 ∧ c = c2 then swapDelta else 0)

/-- `checkConstraints`: after the candidate swap both touched rows must keep
at most two positive colors and every value at most `1.0`. -/
def checkConstraints (t2 : SupplyTable) (p1 p2 : PortId) : Prop :=
  (countColors (t2 p1) ≤ 2 ∧ countColors (t2 p2) ≤ 2) ∧
    ∀ c ∈ COLORS, t2 p1 c ≤ 1 ∧ t2 p2 c ≤ 1

instance (t2 : SupplyTable) (p1 p2 : PortId) : Decidable (checkConstraints t2 p1 p2) := by
  unfold checkConstraints; infer_instance

/-- One swap attempt of the randomizer loop body: returns the new table and
whether the attempt counted as a successful swap. -/
def swapAttempt (t : SupplyTable) (ch : SwapChoice) : SupplyTable × Bool :=
  let p1 := SUPPLY_PORT_IDS.getD ch.p1Idx.val PortId.OKN
  let p2 := SUPPLY_PORT_IDS.getD ch.p2Idx.val PortId.OKN
  let c1 := COLORS.getD ch.c1Idx.val CargoColor.red
  let c2 := COLORS.getD ch.c2Idx.val CargoColor.red
  let canSwapPositive := t p1 c2 ≥ swapDelta ∧ t p2 c1 ≥ swapDelta
  let canSwapNegative := t p1 c1 ≥ swapDelta ∧ t p2 c2 ≥ swapDelta
  let canPositiveWithLimit :=
    canSwapPositive ∧ checkConstraints (applyPos t p1 p2 c1 c2) p1 p2
  let canNegativeWithLimit :=
    canSwapNegative ∧ checkConstraints (applyNeg t p1 p2 c1 c2) p1 p2
  if canPositiveWithLimit ∧ canNegativeWithLimit then
    if ch.coin then (applyPos t p1 p2 c1 c2, true) else (applyNeg t p1 p2 c1 c2, true)
  else if canPositiveWithLimit then (applyPos t p1 p2 c1 c2, true)
  else if canNegativeWithLimit then (applyNeg t p1 p2 c1 c2, true)
  else (t, false)

/-- The randomizer's attempt budget (`maxAttempts`). -/
def maxAttempts : ℕ := 20000

/-- The randomizer's early-exit target (`targetSwaps`). -/
def targetSwaps : ℕ := 5000

/-- The randomizer's main loop: fuel counts the remaining attempts, `i` the
next draw index, `swaps` the successful swaps so far; it stops early once the
target count is reached. -/
def genLoop (stream : ℕ → SwapChoice) : ℕ → ℕ → ℕ → SupplyTable → SupplyTable
  | 0, _, _, t => t
  | fuel + 1, i, swaps, t =>
    if swaps < targetSwaps then
      let (t2, ok) := swapAttempt t (stream i)
      genLoop stream fuel (i + 1) (swaps + if ok then 1 else 0) t2
    else t

/-- `generateRandomSupplyPerTurn`, with the `Math.random()` draws supplied as
an explicit stream of choices: apply the fixed adjustments, then run up to
`maxAttempts` pair swaps (stopping at `targetSwaps` successes). -/
def generateRandomSupplyPerTurn (stream : ℕ → SwapChoice) : SupplyTable :=
  genLoop stream maxAttempts 0 0 (adjustSupply initialSupplyTable)

/-- A port's total production across the four colors (a row sum of the
table, the quantity the randomizer's per-port invariant speaks about). -/
def portSum (t : SupplyTable) (p : PortId) : ℚ :=
  (COLORS.map (fun c => t p c)).sum

/-- A color's total production across the seventeen supply ports (a column
sum of the table). -/
def colorSum (t : SupplyTable) (c : CargoColor) : ℚ :=
  (SUPPLY_PORT_IDS.map (fun p => t p c)).sum

/-! ## Reachable configurations -/

/-- The engine's reachable configurations: pairs of current state and history
stack, starting from the freshly created session and closed under every
public operation of the hook. Load quantities range over the naturals (the
cargo manifest holds integer quantities and every call site of the
presentation layer loads a single unit). -/
inductive Reachable : GameState × List GameState → Prop
  | init : Reachable (createInitialGameState, [])
  | load (st) (shipId : String) (color : CargoColor) (q : ℕ) :
      Reachable st → Reachable (loadCargoUpdate st.1 shipId color (q : ℤ), st.2)
  | ret (st) (shipId : String) (color : CargoColor) :
      Reachable st → Reachable ((returnCargoUpdate st.1 shipId color).1, st.2)
  | unload (st) (shipId : String) :
      Reachable st → Reachable (unloadCargoUpdate st.1 shipId, st.2)
  | sailStep (st) (shipId : String) (dest : PortId) :
      Reachable st → Reachable ((sail st.1 shipId dest).1, st.2)
  | next (st) : Reachable st → Reachable (nextTurnPair st)
  | undo (st) : Reachable st → Reachable (undoTurn st).1
  | reset (st) : Reachable st → Reachable (resetGame st)
  | boost (st) (portId : PortId) :
      Reachable st → Reachable ((useSupplyBoost st.1 portId).1, st.2)
  | freeze (st) : Reachable st → Reachable ((useDemandFreeze st.1).1, st.2)
  | tele (st) (shipId : String) (dest : PortId) :
      Reachable st → Reachable ((useTeleport st.1 shipId dest).1, st.2)

/-! ## A concrete play trace

The small ship (speed 3) sails from Miyazaki to Indonesia in one turn, loads
one red unit there, waits while production refills Indonesia's red stock to
the engine's cap of 10, and then returns its unit, pushing the stock to 11 —
above both the engine's uniform cap and Indonesia's configured group cap. -/

/-- Trace step 0: the fresh session. -/
def trace0 : GameState × List GameState := (createInitialGameState, [])

/-- Trace step 1: the small ship books the three-edge move Miyazaki →
Indonesia (within its speed of 3). -/
def trace1 : GameState × List GameState := ((sail trace0.1 "small" PortId.IDN).1, trace0.2)

/-- Trace step 2: one turn passes; the ship arrives at Indonesia. -/
def trace2 : GameState × List GameState := nextTurnPair trace1

/-- Trace step 3: the ship loads one red unit at Indonesia. -/
def trace3 : GameState × List GameState :=
  (loadCargoUpdate trace2.1 "small" CargoColor.red ((1 : ℕ) : ℤ), trace2.2)

/-- Trace steps 4-11: eight further turns pass while Indonesia's red
production (rate 1, clamp 10) refills the stock to the cap. -/
def trace11 : GameState × List GameState :=
  nextTurnPair (nextTurnPair (nextTurnPair (nextTurnPair
    (nextTurnPair (nextTurnPair (nextTurnPair (nextTurnPair trace3)))))))

/-- Trace step 12: the ship returns its red unit onto the full stock. -/
def trace12 : GameState × List GameState :=
  ((returnCargoUpdate trace11.1 "small" CargoColor.red).1, trace11.2)

/-! ## Derived definitions used by the statements below -/

/-- `k` successive `advanceTurn` invocations (each pushing the pre-turn
snapshot, as `nextTurn` does). -/
def advanceK : ℕ → GameState × List GameState → GameState × List GameState
  | 0, st => st
  | k + 1, st => advanceK k (nextTurnPair st)

/-- `k` successive `undo` invocations. -/
def undoK : ℕ → GameState × List GameState → GameState × List GameState
  | 0, st => st
  | k + 1, st => undoK k (undoTurn st).1

/-- The current state after `k` turns (ignoring the history side). -/
def nextIter : ℕ → GameState → GameState
  | 0, s => s
  | k + 1, s => nextIter k (nextTurnState s)

/-- The snapshots pushed by `k` successive `advanceTurn` calls from `s`, in
push order. -/
def pushedList : ℕ → GameState → List GameState
  | 0, _ => []
  | k + 1, s => s :: pushedList k (nextTurnState s)

/-- The first demand port whose inventory the demand phase takes below
zero, in inventory-list order. -/
def firstFailingPort (t : ℕ) : List CityInventory → Option PortId
  | [] => none
  | inv :: rest =>
    if inv.stock - getDemandForTurn t inv.portId < 0 then some inv.portId
    else firstFailingPort t rest

/-- The danger log entry recorded when a demand port's stock runs out. -/
def gameOverLogEntry (t : ℕ) (name : String) : GameLogEntry :=
  ⟨t, name ++ "の在庫が枯渇しました！ゲームオーバー", .danger⟩

/-- The info log entry recorded by a successful load. -/
def loadLogEntry (t : ℕ) (shipName : String) (color : CargoColor) (qty : ℤ) :
    GameLogEntry :=
  ⟨t, shipName ++ "が" ++ colorNameJp color ++ "貨物を" ++ toString qty ++
    "個積み込みました", .info⟩

/-- The success log entry recorded by a manual unload. -/
def unloadLogEntry (t : ℕ) (shipName portName : String) (qty : ℤ) : GameLogEntry :=
  ⟨t, shipName ++ "が" ++ portName ++ "で" ++ toString qty ++
    "個の貨物を荷下ろししました", .success⟩

/-- The spec's per-ship capacity invariant: total cargo within capacity and
distinct colors within the color limit. -/
def ShipInvariant (sh : Ship) : Prop :=
  cargoSum sh.cargo ≤ sh.capacity ∧ (cargoColors sh.cargo).card ≤ sh.maxColors

/-- Every manifest entry of a ship carries a nonnegative quantity. -/
def ShipCargoNonneg (sh : Ship) : Prop :=
  ∀ e ∈ sh.cargo, 0 ≤ e.quantity

/-- The strengthened per-state invariant carried through the reachability
induction: every ship satisfies the capacity invariant with a nonnegative
manifest, every port has nonnegative stocks and production rates, and ship
identifiers are pairwise distinct. -/
def GoodState (s : GameState) : Prop :=
  (∀ sh ∈ s.ships, ShipInvariant sh ∧ ShipCargoNonneg sh) ∧
    (∀ p c, 0 ≤ (s.ports p).cargoStock c ∧ 0 ≤ rateOf (s.ports p) c) ∧
    (s.ships.map (fun sh => sh.id)).Nodup

/-- The invariant for a state/history pair: it holds of the current state
and of every snapshot on the stack. -/
def GoodPair (st : GameState × List GameState) : Prop :=
  GoodState st.1 ∧ ∀ t ∈ st.2, GoodState t

/-- A fixed draw stream for exercising the supply randomizer at a concrete
input (both port indices 0, both color indices 0, coin `false`). -/
def constStream : ℕ → SwapChoice :=
  fun _ => ⟨0, 0, 0, 0, false⟩

/-! # Theorems -/

/-! ## History manager: advance/undo round trips (claim C1) -/

theorem pushedList_length (k : ℕ) : ∀ s, (pushedList k s).length = k := by
  induction k with
  | zero => intro s; rfl
  | succ k ih => intro s; simp [pushedList, ih]

theorem advanceK_eq (k : ℕ) :
    ∀ s h, advanceK k (s, h) = (nextIter k s, h ++ pushedList k s) := by
  induction k with
  | zero => intro s h; simp [advanceK, nextIter, pushedList]
  | succ k ih =>
    intro s h
    show advanceK k (nextTurnPair (s, h)) = _
    simp only [nextTurnPair]
    rw [ih]
    simp [nextIter, pushedList]

theorem undoK_pops (l : List GameState) :
    ∀ (t : GameState) (h : List GameState) (s : GameState),
      undoK (l.length + 1) (t, h ++ s :: l) =
        ({ s with logs := s.logs ++ [undoLogEntry s.turn] }, h) := by
  induction l using List.reverseRecOn with
  | nil =>
    intro t h s
    show undoK 0 (undoTurn (t, h ++ [s])).1 = _
    have hg : (h ++ [s]).getLast? = some s := List.getLast?_concat h
    have hd : (h ++ [s]).dropLast = h := List.dropLast_concat
    show (undoTurn (t, h ++ [s])).1 = _
    unfold undoTurn
    rw [hg]
    simp [hd]
  | append_singleton l z ih =>
    intro t h s
    have hlen : (l ++ [z]).length + 1 = (l.length + 1) + 1 := by simp
    rw [hlen]
    show undoK (l.length + 1) (undoTurn (t, h ++ s :: (l ++ [z]))).1 = _
    have hsplit : h ++ s :: (l ++ [z]) = (h ++ s :: l) ++ [z] := by simp
    have hg : (h ++ s :: (l ++ [z])).getLast? = some z := by
      rw [hsplit]; exact List.getLast?_concat _
    have hd : (h ++ s :: (l ++ [z])).dropLast = h ++ s :: l := by
      rw [hsplit]; exact List.dropLast_concat
    have hu : (undoTurn (t, h ++ s :: (l ++ [z]))).1 =
        ({ z with logs := z.logs ++ [undoLogEntry z.turn] }, h ++ s :: l) := by
      unfold undoTurn
      rw [hg]
      simp [hd]
    rw [hu, ih]

/-- Claim C1 (counterexample): one `advanceTurn` followed by one `undo` from
the fresh session does not restore the original `GameState`: `undo` appends
a notification entry to the restored snapshot's log. -/
theorem c1_undo_roundtrip_counterexample :
    (undoK 1 (advanceK 1 (createInitialGameState, []))).1 ≠ createInitialGameState := by
  intro heq
  have h2 := congrArg (fun st => st.logs.length) heq
  revert h2
  with_unfolding_all decide

/-- Claim C1 (amended): for every `k ≥ 1` and every playing state, `k`
`advanceTurn()` calls (each pushing the pre-turn snapshot) followed by `k`
`undo()` calls restore the pre-turn state in every field except the log,
which gains exactly the one "returned to previous turn" info entry appended
by the final `undo`; the history stack is restored exactly. -/
theorem c1_undo_roundtrip_amended (k : ℕ) (hk : 1 ≤ k)
    (s : GameState) (h : List GameState) (_hs : s.status = GameStatus.playing) :
    undoK k (advanceK k (s, h)) =
      ({ s with logs := s.logs ++ [undoLogEntry s.turn] }, h) := by
  obtain ⟨j, rfl⟩ : ∃ j, k = j + 1 := ⟨k - 1, by omega⟩
  rw [advanceK_eq]
  have hp : pushedList (j + 1) s = s :: pushedList j (nextTurnState s) := rfl
  rw [hp]
  have hl : j + 1 = (pushedList j (nextTurnState s)).length + 1 := by
    rw [pushedList_length]
  rw [hl]
  exact undoK_pops _ _ _ _

/-- Witness for the amended C1 at `k = 1` on the fresh session. -/
theorem c1_undo_roundtrip_amended_witness :
    1 ≤ 1 ∧ createInitialGameState.status = GameStatus.playing ∧
      undoK 1 (advanceK 1 (createInitialGameState, [])) =
        ({ createInitialGameState with
            logs := createInitialGameState.logs ++ [undoLogEntry createInitialGameState.turn] },
          ([] : List GameState)) :=
  ⟨le_refl 1, rfl,
    c1_undo_roundtrip_amended 1 (le_refl 1) createInitialGameState [] rfl⟩

/-! ## Supply randomizer invariants (claim C3) -/

theorem sumMap_addsub {α : Type} (L : List α) (f i1 i2 i3 i4 : α → ℚ) :
    (L.map (fun x => f x + i1 x - i2 x - i3 x + i4 x)).sum =
      (L.map f).sum + (L.map i1).sum - (L.map i2).sum - (L.map i3).sum +
        (L.map i4).sum := by
  induction L with
  | nil => simp
  | cons a t ih => simp only [List.map_cons, List.sum_cons, ih]; ring

theorem sumMap_subadd {α : Type} (L : List α) (f i1 i2 i3 i4 : α → ℚ) :
    (L.map (fun x => f x - i1 x + i2 x + i3 x - i4 x)).sum =
      (L.map f).sum - (L.map i1).sum + (L.map i2).sum + (L.map i3).sum -
        (L.map i4).sum := by
  induction L with
  | nil => simp
  | cons a t ih => simp only [List.map_cons, List.sum_cons, ih]; ring

theorem sumMap_ite_eq {α : Type} [DecidableEq α] (L : List α) (q : α) (d : ℚ)
    (hq : q ∈ L) (hnd : L.Nodup) :
    (L.map (fun p => if p = q then d else 0)).sum = d := by
  induction L with
  | nil => cases hq
  | cons a t ih =>
    rcases List.mem_cons.mp hq with h | hmem
    · subst h
      have hnot : q ∉ t := (List.nodup_cons.mp hnd).1
      have hz : (t.map (fun p => if p = q then d else 0)).sum = 0 := by
        apply List.sum_eq_zero
        intro x hx
        rcases List.mem_map.mp hx with ⟨p, hp, rfl⟩
        have hne : p ≠ q := fun hpq => hnot (hpq ▸ hp)
        simp [hne]
      simp [hz]
    · have hnd2 := List.nodup_cons.mp hnd
      have hne : a ≠ q := fun h => hnd2.1 (h ▸ hmem)
      simp only [List.map_cons, List.sum_cons, if_neg hne, ih hmem hnd2.2, zero_add]

theorem sumMap_indicator_right {α : Type} [DecidableEq α] (L : List α) (q : α)
    (d : ℚ) (cond : Prop) [Decidable cond] (hq : q ∈ L) (hnd : L.Nodup) :
    (L.map (fun p => if p = q ∧ cond then d else 0)).sum = if cond then d else 0 := by
  by_cases hc : cond
  · simp only [hc, and_true, if_true]
    exact sumMap_ite_eq L q d hq hnd
  · simp [hc]

theorem sumMap_indicator_left {α : Type} [DecidableEq α] (L : List α) (q : α)
    (d : ℚ) (cond : Prop) [Decidable cond] (hq : q ∈ L) (hnd : L.Nodup) :
    (L.map (fun p => if cond ∧ p = q then d else 0)).sum = if cond then d else 0 := by
  by_cases hc : cond
  · simp only [hc, true_and, if_true]
    exact sumMap_ite_eq L q d hq hnd
  · simp [hc]

theorem colors_nodup : COLORS.Nodup := by decide

theorem supply_ports_nodup : SUPPLY_PORT_IDS.Nodup := by decide

theorem mem_colors (c : CargoColor) : c ∈ COLORS := by cases c <;> decide

theorem portSum_applyPos (t : SupplyTable) (p1 p2 : PortId) (c1 c2 : CargoColor)
    (p : PortId) : portSum (applyPos t p1 p2 c1 c2) p = portSum t p := by
  have h : portSum (applyPos t p1 p2 c1 c2) p =
      (COLORS.map (fun c => t p c)).sum
      + (COLORS.map (fun c => if p = p1 ∧ c = c1 then swapDelta else 0)).sum
      - (COLORS.map (fun c => if p = p1 ∧ c = c2 then swapDelta else 0)).sum
      - (COLORS.map (fun c => if p = p2 ∧ c = c1 then swapDelta else 0)).sum
      + (COLORS.map (fun c => if p = p2 ∧ c = c2 then swapDelta else 0)).sum :=
    sumMap_addsub COLORS _ _ _ _ _
  rw [h,
    sumMap_indicator_left COLORS c1 swapDelta (p = p1) (mem_colors c1) colors_nodup,
    sumMap_indicator_left COLORS c2 swapDelta (p = p1) (mem_colors c2) colors_nodup,
    sumMap_indicator_left COLORS c1 swapDelta (p = p2) (mem_colors c1) colors_nodup,
    sumMap_indicator_left COLORS c2 swapDelta (p = p2) (mem_colors c2) colors_nodup]
  show _ = (COLORS.map (fun c => t p c)).sum
  ring

theorem portSum_applyNeg (t : SupplyTable) (p1 p2 : PortId) (c1 c2 : CargoColor)
    (p : PortId) : portSum (applyNeg t p1 p2 c1 c2) p = portSum t p := by
  have h : portSum (applyNeg t p1 p2 c1 c2) p =
      (COLORS.map (fun c => t p c)).sum
      - (COLORS.map (fun c => if p = p1 ∧ c = c1 then swapDelta else 0)).sum
      + (COLORS.map (fun c => if p = p1 ∧ c = c2 then swapDelta else 0)).sum
      + (COLORS.map (fun c => if p = p2 ∧ c = c1 then swapDelta else 0)).sum
      - (COLORS.map (fun c => if p = p2 ∧ c = c2 then swapDelta else 0)).sum :=
    sumMap_subadd COLORS _ _ _ _ _
  rw [h,
    sumMap_indicator_left COLORS c1 swapDelta (p = p1) (mem_colors c1) colors_nodup,
    sumMap_indicator_left COLORS c2 swapDelta (p = p1) (mem_colors c2) colors_nodup,
    sumMap_indicator_left COLORS c1 swapDelta (p = p2) (mem_colors c1) colors_nodup,
    sumMap_indicator_left COLORS c2 swapDelta (p = p2) (mem_colors c2) colors_nodup]
  show _ = (COLORS.map (fun c => t p c)).sum
  ring

theorem colorSum_applyPos (t : SupplyTable) (p1 p2 : PortId) (c1 c2 : CargoColor)
    (hp1 : p1 ∈ SUPPLY_PORT_IDS) (hp2 : p2 ∈ SUPPLY_PORT_IDS) (c : CargoColor) :
    colorSum (applyPos t p1 p2 c1 c2) c = colorSum t c := by
  have h : colorSum (applyPos t p1 p2 c1 c2) c =
      (SUPPLY_PORT_IDS.map (fun p => t p c)).sum
      + (SUPPLY_PORT_IDS.map (fun p => if p = p1 ∧ c = c1 then swapDelta else 0)).sum
      - (SUPPLY_PORT_IDS.map (fun p => if p = p1 ∧ c = c2 then swapDelta else 0)).sum
      - (SUPPLY_PORT_IDS.map (fun p => if p = p2 ∧ c = c1 then swapDelta else 0)).sum
      + (SUPPLY_PORT_IDS.map (fun p => if p = p2 ∧ c = c2 then swapDelta else 0)).sum :=
    sumMap_addsub SUPPLY_PORT_IDS _ _ _ _ _
  rw [h,
    sumMap_indicator_right SUPPLY_PORT_IDS p1 swapDelta (c = c1) hp1 supply_ports_nodup,
    sumMap_indicator_right SUPPLY_PORT_IDS p1 swapDelta (c = c2) hp1 supply_ports_nodup,
    sumMap_indicator_right SUPPLY_PORT_IDS p2 swapDelta (c = c1) hp2 supply_ports_nodup,
    sumMap_indicator_right SUPPLY_PORT_IDS p2 swapDelta (c = c2) hp2 supply_ports_nodup]
  show _ = (SUPPLY_PORT_IDS.map (fun p => t p c)).sum
  ring

theorem colorSum_applyNeg (t : SupplyTable) (p1 p2 : PortId) (c1 c2 : CargoColor)
    (hp1 : p1 ∈ SUPPLY_PORT_IDS) (hp2 : p2 ∈ SUPPLY_PORT_IDS) (c : CargoColor) :
    colorSum (applyNeg t p1 p2 c1 c2) c = colorSum t c := by
  have h : colorSum (applyNeg t p1 p2 c1 c2) c =
      (SUPPLY_PORT_IDS.map (fun p => t p c)).sum
      - (SUPPLY_PORT_IDS.map (fun p => if p = p1 ∧ c = c1 then swapDelta else 0)).sum
      + (SUPPLY_PORT_IDS.map (fun p => if p = p1 ∧ c = c2 then swapDelta else 0)).sum
      + (SUPPLY_PORT_IDS.map (fun p => if p = p2 ∧ c = c1 then swapDelta else 0)).sum
      - (SUPPLY_PORT_IDS.map (fun p => if p = p2 ∧ c = c2 then swapDelta else 0)).sum :=
    sumMap_subadd SUPPLY_PORT_IDS _ _ _ _ _
  rw [h,
    sumMap_indicator_right SUPPLY_PORT_IDS p1 swapDelta (c = c1) hp1 supply_ports_nodup,
    sumMap_indicator_right SUPPLY_PORT_IDS p1 swapDelta (c = c2) hp1 supply_ports_nodup,
    sumMap_indicator_right SUPPLY_PORT_IDS p2 swapDelta (c = c1) hp2 supply_ports_nodup,
    sumMap_indicator_right SUPPLY_PORT_IDS p2 swapDelta (c = c2) hp2 supply_ports_nodup]
  show _ = (SUPPLY_PORT_IDS.map (fun p => t p c)).sum
  ring

theorem getD_supply_mem (n : ℕ) : SUPPLY_PORT_IDS.getD n PortId.OKN ∈ SUPPLY_PORT_IDS := by
  rcases Nat.lt_or_ge n 17 with h | h
  · interval_cases n <;> decide
  · have hd : SUPPLY_PORT_IDS.getD n PortId.OKN = PortId.OKN := by
      apply List.getD_eq_default
      simpa [SUPPLY_PORT_IDS] using h
    rw [hd]; decide

theorem swapAttempt_fst (t : SupplyTable) (ch : SwapChoice) :
    (swapAttempt t ch).1 = t ∨
      ∃ p1 p2 c1 c2, p1 ∈ SUPPLY_PORT_IDS ∧ p2 ∈ SUPPLY_PORT_IDS ∧
        ((swapAttempt t ch).1 = applyPos t p1 p2 c1 c2 ∨
          (swapAttempt t ch).1 = applyNeg t p1 p2 c1 c2) := by
  simp only [swapAttempt]
  split_ifs <;>
    first
      | exact Or.inl rfl
      | exact Or.inr ⟨_, _, _, _, getD_supply_mem _, getD_supply_mem _, Or.inl rfl⟩
      | exact Or.inr ⟨_, _, _, _, getD_supply_mem _, getD_supply_mem _, Or.inr rfl⟩

theorem portSum_swapAttempt (t : SupplyTable) (ch : SwapChoice) (p : PortId) :
    portSum (swapAttempt t ch).1 p = portSum t p := by
  rcases swapAttempt_fst t ch with h | ⟨p1, p2, c1, c2, _, _, h | h⟩
  · rw [h]
  · rw [h, portSum_applyPos]
  · rw [h, portSum_applyNeg]

theorem colorSum_swapAttempt (t : SupplyTable) (ch : SwapChoice) (c : CargoColor) :
    colorSum (swapAttempt t ch).1 c = colorSum t c := by
  rcases swapAttempt_fst t ch with h | ⟨p1, p2, c1, c2, hp1, hp2, h | h⟩
  · rw [h]
  · rw [h, colorSum_applyPos t p1 p2 c1 c2 hp1 hp2]
  · rw [h, colorSum_applyNeg t p1 p2 c1 c2 hp1 hp2]

theorem portSum_genLoop (stream : ℕ → SwapChoice) (fuel : ℕ) :
    ∀ i swaps t p, portSum (genLoop stream fuel i swaps t) p = portSum t p := by
  induction fuel with
  | zero => intro i swaps t p; rfl
  | succ fuel ih =>
    intro i swaps t p
    show portSum (if swaps < targetSwaps then _ else t) p = _
    split_ifs
    · show portSum (genLoop stream fuel _ _ _) p = _
      rw [ih]
      exact portSum_swapAttempt t (stream i) p
    · rfl

theorem colorSum_genLoop (stream : ℕ → SwapChoice) (fuel : ℕ) :
    ∀ i swaps t c, colorSum (genLoop stream fuel i swaps t) c = colorSum t c := by
  induction fuel with
  | zero => intro i swaps t c; rfl
  | succ fuel ih =>
    intro i swaps t c
    show colorSum (if swaps < targetSwaps then _ else t) c = _
    split_ifs
    · show colorSum (genLoop stream fuel _ _ _) c = _
      rw [ih]
      exact colorSum_swapAttempt t (stream i) c
    · rfl

/-- Claim C3 (counterexample): at the constant draw stream, the generated
table\'s yellow column sum differs from the fixed initial table\'s yellow sum —
the pre-swap adjustments to Singapore, Papua New Guinea and Taiwan move 1.0
of green production into yellow before any sum-preserving swap runs. -/
theorem c3_randomizer_counterexample :
    colorSum (generateRandomSupplyPerTurn constStream) CargoColor.yellow ≠
      colorSum initialSupplyTable CargoColor.yellow := by
  unfold generateRandomSupplyPerTurn
  rw [colorSum_genLoop]
  with_unfolding_all decide

/-- Claim C3 (amended): for every draw stream, the generated table preserves
every port\'s per-color sum of the fixed initial table, and for every color it
preserves the column sum of the *adjusted* initial table (the fixed table
after the hard-coded SGP/PNG/TAW adjustments), not of the fixed table itself. -/
theorem c3_randomizer_invariants (stream : ℕ → SwapChoice) :
    (∀ p, portSum (generateRandomSupplyPerTurn stream) p = portSum initialSupplyTable p) ∧
      (∀ c, colorSum (generateRandomSupplyPerTurn stream) c =
        colorSum (adjustSupply initialSupplyTable) c) := by
  constructor
  · intro p
    unfold generateRandomSupplyPerTurn
    rw [portSum_genLoop]
    revert p
    with_unfolding_all decide
  · intro c
    unfold generateRandomSupplyPerTurn
    rw [colorSum_genLoop]

/-! ## Cargo manifest lemmas -/

theorem cargoSum_cons (e : ShipCargo) (t : List ShipCargo) :
    cargoSum (e :: t) = e.quantity + cargoSum t := by
  simp [cargoSum]

theorem cargoSum_append (l1 l2 : List ShipCargo) :
    cargoSum (l1 ++ l2) = cargoSum l1 + cargoSum l2 := by
  simp [cargoSum]

theorem any_color_iff (l : List ShipCargo) (c : CargoColor) :
    l.any (fun e => e.color == c) = true ↔ c ∈ cargoColors l := by
  unfold cargoColors
  rw [List.any_eq_true, List.mem_toFinset]
  constructor
  · rintro ⟨e, he, heq⟩
    exact List.mem_map.mpr ⟨e, he, beq_iff_eq.mp heq⟩
  · intro h
    rcases List.mem_map.mp h with ⟨e, he, heq⟩
    exact ⟨e, he, beq_iff_eq.mpr heq⟩

theorem bumpFirst_colors (l : List ShipCargo) (c : CargoColor) (q : ℤ) :
    (bumpFirstCargo l c q).map (fun e => e.color) = l.map (fun e => e.color) := by
  induction l with
  | nil => rfl
  | cons e t ih =>
    by_cases hc : e.color = c <;> simp [bumpFirstCargo, hc, ih]

theorem cargoSum_bumpFirst (l : List ShipCargo) (c : CargoColor) (q : ℤ)
    (h : l.any (fun e => e.color == c) = true) :
    cargoSum (bumpFirstCargo l c q) = cargoSum l + q := by
  induction l with
  | nil => cases h
  | cons e t ih =>
    by_cases hc : e.color = c
    · rw [show bumpFirstCargo (e :: t) c q =
          { e with quantity := e.quantity + q } :: t by simp [bumpFirstCargo, hc]]
      rw [cargoSum_cons, cargoSum_cons]
      have hqe : ({ e with quantity := e.quantity + q } : ShipCargo).quantity =
          e.quantity + q := rfl
      rw [hqe]
      ring
    · have ht : t.any (fun e => e.color == c) = true := by
        simpa [List.any_cons, hc] using h
      rw [show bumpFirstCargo (e :: t) c q = e :: bumpFirstCargo t c q by
        simp [bumpFirstCargo, hc]]
      rw [cargoSum_cons, cargoSum_cons, ih ht]
      ring

theorem cargoSum_addCargo (l : List ShipCargo) (c : CargoColor) (q : ℤ) :
    cargoSum (addCargo l c q) = cargoSum l + q := by
  unfold addCargo
  split_ifs with h
  · exact cargoSum_bumpFirst l c q h
  · rw [cargoSum_append]
    simp [cargoSum]

theorem cargoColors_addCargo (l : List ShipCargo) (c : CargoColor) (q : ℤ) :
    cargoColors (addCargo l c q) = insert c (cargoColors l) := by
  unfold addCargo
  split_ifs with h
  · have hm : c ∈ cargoColors l := (any_color_iff l c).mp h
    unfold cargoColors
    rw [bumpFirst_colors]
    exact (Finset.insert_eq_self.mpr hm).symm
  · unfold cargoColors
    rw [List.map_append, List.toFinset_append]
    simp [Finset.union_comm, Finset.insert_eq]

theorem bumpFirst_nonneg (l : List ShipCargo) (c : CargoColor) (q : ℤ)
    (hl : ∀ e ∈ l, 0 ≤ e.quantity) (hq : 0 ≤ q) :
    ∀ e ∈ bumpFirstCargo l c q, 0 ≤ e.quantity := by
  induction l with
  | nil => intro e he; cases he
  | cons a t ih =>
    by_cases hc : a.color = c
    · simp only [bumpFirstCargo, if_pos hc]
      intro e he
      rcases List.mem_cons.mp he with rfl | hmem
      · exact add_nonneg (hl a (List.mem_cons_self a t)) hq
      · exact hl e (List.mem_cons_of_mem a hmem)
    · simp only [bumpFirstCargo, if_neg hc]
      intro e he
      rcases List.mem_cons.mp he with rfl | hmem
      · exact hl e (List.mem_cons_self e t)
      · exact ih (fun x hx => hl x (List.mem_cons_of_mem a hx)) e hmem

theorem addCargo_nonneg (l : List ShipCargo) (c : CargoColor) (q : ℤ)
    (hl : ∀ e ∈ l, 0 ≤ e.quantity) (hq : 0 ≤ q) :
    ∀ e ∈ addCargo l c q, 0 ≤ e.quantity := by
  unfold addCargo
  split_ifs with h
  · exact bumpFirst_nonneg l c q hl hq
  · intro e he
    rcases List.mem_append.mp he with h1 | h2
    · exact hl e h1
    · simp at h2
      rw [h2]
      exact hq

theorem decFirst_colors (l : List ShipCargo) (c : CargoColor) :
    (decFirstCargo l c).map (fun e => e.color) = l.map (fun e => e.color) := by
  induction l with
  | nil => rfl
  | cons e t ih =>
    by_cases hc : e.color = c <;> simp [decFirstCargo, hc, ih]

theorem cargoSum_decFirst_le (l : List ShipCargo) (c : CargoColor) :
    cargoSum (decFirstCargo l c) ≤ cargoSum l := by
  induction l with
  | nil => simp [decFirstCargo, cargoSum]
  | cons e t ih =>
    by_cases hc : e.color = c
    · rw [show decFirstCargo (e :: t) c = { e with quantity := e.quantity - 1 } :: t by
        simp [decFirstCargo, hc]]
      rw [cargoSum_cons, cargoSum_cons]
      have hqe : ({ e with quantity := e.quantity - 1 } : ShipCargo).quantity =
          e.quantity - 1 := rfl
      rw [hqe]
      omega
    · rw [show decFirstCargo (e :: t) c = e :: decFirstCargo t c by
        simp [decFirstCargo, hc]]
      rw [cargoSum_cons, cargoSum_cons]
      omega

theorem cargoSum_filter_le (l : List ShipCargo) (p : ShipCargo → Bool)
    (hl : ∀ e ∈ l, 0 ≤ e.quantity) :
    cargoSum (l.filter p) ≤ cargoSum l := by
  induction l with
  | nil => simp [cargoSum]
  | cons e t ih =>
    have he := hl e (List.mem_cons_self e t)
    have iht := ih (fun x hx => hl x (List.mem_cons_of_mem e hx))
    rw [cargoSum_cons, List.filter_cons]
    split_ifs
    · rw [cargoSum_cons]
      omega
    · omega

theorem cargoColors_filter_subset (l : List ShipCargo) (p : ShipCargo → Bool) :
    cargoColors (l.filter p) ⊆ cargoColors l := by
  intro x hx
  simp only [cargoColors, List.mem_toFinset, List.mem_map] at hx ⊢
  rcases hx with ⟨e, he, rfl⟩
  exact ⟨e, (List.mem_filter.mp he).1, rfl⟩

theorem returnShip_sum_le (l : List ShipCargo) (c : CargoColor)
    (hl : ∀ e ∈ l, 0 ≤ e.quantity) :
    cargoSum ((decFirstCargo l c).filter (fun e => 0 < e.quantity)) ≤ cargoSum l := by
  induction l with
  | nil => simp [decFirstCargo, cargoSum]
  | cons e t ih =>
    have he := hl e (List.mem_cons_self e t)
    have hlt : ∀ x ∈ t, 0 ≤ x.quantity := fun x hx => hl x (List.mem_cons_of_mem e hx)
    have htf := cargoSum_filter_le t (fun e => decide (0 < e.quantity)) hlt
    rw [cargoSum_cons]
    by_cases hc : e.color = c
    · rw [show decFirstCargo (e :: t) c = { e with quantity := e.quantity - 1 } :: t by
        simp [decFirstCargo, hc]]
      rw [List.filter_cons]
      split_ifs with hpos
      · rw [cargoSum_cons]
        have hqe : ({ e with quantity := e.quantity - 1 } : ShipCargo).quantity =
            e.quantity - 1 := rfl
        rw [hqe]
        omega
      · omega
    · rw [show decFirstCargo (e :: t) c = e :: decFirstCargo t c by
        simp [decFirstCargo, hc]]
      rw [List.filter_cons]
      have iht := ih hlt
      split_ifs
      · rw [cargoSum_cons]
        omega
      · omega

theorem decFirst_keep_nonneg (l : List ShipCargo) (c : CargoColor) (e : ShipCargo)
    (hl : ∀ x ∈ l, 0 ≤ x.quantity)
    (hfind : l.find? (fun x => x.color == c) = some e)
    (hpos : (0 : ℤ) < e.quantity - 1) :
    ∀ x ∈ decFirstCargo l c, 0 ≤ x.quantity := by
  induction l with
  | nil => cases hfind
  | cons a t ih =>
    by_cases hc : a.color = c
    · have hfa : (a :: t).find? (fun x => x.color == c) = some a :=
        List.find?_cons_of_pos _ (by simp [hc])
      rw [hfa] at hfind
      have hae : a = e := by injection hfind
      subst hae
      simp only [decFirstCargo, if_pos hc]
      intro x hx
      rcases List.mem_cons.mp hx with rfl | hmem
      · show 0 ≤ a.quantity - 1
        omega
      · exact hl x (List.mem_cons_of_mem a hmem)
    · have hft : (a :: t).find? (fun x => x.color == c) = t.find? (fun x => x.color == c) :=
        List.find?_cons_of_neg _ (by simp [hc])
      rw [hft] at hfind
      simp only [decFirstCargo, if_neg hc]
      intro x hx
      rcases List.mem_cons.mp hx with rfl | hmem
      · exact hl x (List.mem_cons_self x t)
      · exact ih (fun y hy => hl y (List.mem_cons_of_mem a hy)) hfind x hmem

/-! ## Ship-level invariant lemmas -/

theorem ratFloor_eq_floor (x : ℚ) : ratFloor x = ⌊x⌋ :=
  Rat.floor_def.symm

theorem ratFloor_cast_le (x : ℚ) : ((ratFloor x : ℤ) : ℚ) ≤ x := by
  rw [ratFloor_eq_floor]
  exact Int.floor_le x

theorem ratMin_le_right (a b : ℚ) : ratMin a b ≤ b := by
  unfold ratMin
  split_ifs with h
  · exact h
  · exact le_refl b

theorem ratMin_nonneg (a b : ℚ) (ha : 0 ≤ a) (hb : 0 ≤ b) : 0 ≤ ratMin a b := by
  unfold ratMin
  split_ifs <;> assumption

theorem shipInv_filterCargo (sh : Ship) (p : ShipCargo → Bool)
    (h : ShipInvariant sh ∧ ShipCargoNonneg sh) :
    ShipInvariant { sh with cargo := sh.cargo.filter p } ∧
      ShipCargoNonneg { sh with cargo := sh.cargo.filter p } := by
  obtain ⟨⟨hsum, hcol⟩, hn⟩ := h
  refine ⟨⟨?_, ?_⟩, ?_⟩
  · show cargoSum (sh.cargo.filter p) ≤ sh.capacity
    exact le_trans (cargoSum_filter_le _ p hn) hsum
  · show (cargoColors (sh.cargo.filter p)).card ≤ sh.maxColors
    exact le_trans (Finset.card_le_card (cargoColors_filter_subset _ p)) hcol
  · intro e he
    exact hn e (List.mem_filter.mp he).1

theorem shipInv_addCargo (sh : Ship) (c : CargoColor) (q : ℤ) (hq : 0 ≤ q)
    (h : ShipInvariant sh ∧ ShipCargoNonneg sh)
    (hcap : ¬(cargoSum sh.cargo + q > sh.capacity))
    (hcol : ¬(c ∉ cargoColors sh.cargo ∧ (cargoColors sh.cargo).card ≥ sh.maxColors)) :
    ShipInvariant { sh with cargo := addCargo sh.cargo c q } ∧
      ShipCargoNonneg { sh with cargo := addCargo sh.cargo c q } := by
  obtain ⟨⟨hsum, hcols⟩, hn⟩ := h
  refine ⟨⟨?_, ?_⟩, ?_⟩
  · show cargoSum (addCargo sh.cargo c q) ≤ sh.capacity
    rw [cargoSum_addCargo]
    omega
  · show (cargoColors (addCargo sh.cargo c q)).card ≤ sh.maxColors
    rw [cargoColors_addCargo]
    by_cases hm : c ∈ cargoColors sh.cargo
    · rw [Finset.insert_eq_self.mpr hm]
      exact hcols
    · rcases not_and_or.mp hcol with h1 | h2
      · exact absurd (not_not.mp h1) hm
      · calc (insert c (cargoColors sh.cargo)).card
            ≤ (cargoColors sh.cargo).card + 1 := Finset.card_insert_le _ _
          _ ≤ sh.maxColors := by omega
  · exact addCargo_nonneg sh.cargo c q hn hq

theorem shipInv_returnShip (sh : Ship) (c : CargoColor)
    (h : ShipInvariant sh ∧ ShipCargoNonneg sh) :
    ShipInvariant (returnCargoShip sh c) ∧ ShipCargoNonneg (returnCargoShip sh c) := by
  obtain ⟨⟨hsum, hcols⟩, hn⟩ := h
  have hcc : cargoColors (decFirstCargo sh.cargo c) = cargoColors sh.cargo := by
    unfold cargoColors
    rw [decFirst_colors]
  unfold returnCargoShip
  cases hfind : sh.cargo.find? (fun x => x.color == c) with
  | none => exact ⟨⟨hsum, hcols⟩, hn⟩
  | some e =>
    dsimp only
    split_ifs with hq
    · refine ⟨⟨?_, ?_⟩, ?_⟩
      · show cargoSum ((decFirstCargo sh.cargo c).filter fun x => 0 < x.quantity) ≤
            sh.capacity
        exact le_trans (returnShip_sum_le sh.cargo c hn) hsum
      · show (cargoColors ((decFirstCargo sh.cargo c).filter fun x => 0 < x.quantity)).card ≤
            sh.maxColors
        refine le_trans (Finset.card_le_card ?_) hcols
        rw [← hcc]
        exact cargoColors_filter_subset _ _
      · intro x hx
        have hx2 := (List.mem_filter.mp hx).2
        have : (0 : ℤ) < x.quantity := of_decide_eq_true hx2
        omega
    · refine ⟨⟨?_, ?_⟩, ?_⟩
      · show cargoSum (decFirstCargo sh.cargo c) ≤ sh.capacity
        exact le_trans (cargoSum_decFirst_le _ _) hsum
      · show (cargoColors (decFirstCargo sh.cargo c)).card ≤ sh.maxColors
        rw [hcc]
        exact hcols
      · exact decFirst_keep_nonneg sh.cargo c e hn hfind (by omega)

theorem updatePortStock_preserves (ports : PortId → Port) (pid : PortId)
    (c : CargoColor) (f : ℚ → ℚ)
    (hg : ∀ p d, 0 ≤ (ports p).cargoStock d ∧ 0 ≤ rateOf (ports p) d)
    (hf : 0 ≤ f ((ports pid).cargoStock c)) :
    ∀ p d, 0 ≤ ((updatePortStock ports pid c f) p).cargoStock d ∧
      0 ≤ rateOf ((updatePortStock ports pid c f) p) d := by
  intro p d
  unfold updatePortStock
  split_ifs with hp
  · subst hp
    constructor
    · show 0 ≤ if d = c then f ((ports p).cargoStock d) else (ports p).cargoStock d
      split_ifs with hd
      · subst hd
        exact hf
      · exact (hg p d).1
    · exact (hg p d).2
  · exact hg p d

theorem idsNodup_map (ships : List Ship) (f : Ship → Ship)
    (hf : ∀ sh, (f sh).id = sh.id)
    (h : (ships.map (fun sh => sh.id)).Nodup) :
    ((ships.map f).map (fun sh => sh.id)).Nodup := by
  rw [List.map_map]
  have hfe : ((fun sh => sh.id) ∘ f) = (fun (sh : Ship) => sh.id) := funext fun sh => hf sh
  rw [hfe]
  exact h

theorem mem_id_eq_find (ships : List Ship)
    (hnd : (ships.map (fun sh => sh.id)).Nodup) (i : String) (ship : Ship)
    (hfind : ships.find? (fun sh => sh.id == i) = some ship)
    (sh : Ship) (hmem : sh ∈ ships) (hid : sh.id == i) : sh = ship := by
  have hmem2 : ship ∈ ships := List.mem_of_find?_eq_some hfind
  have hid2 : (ship.id == i) = true := by
    have := List.find?_some (p := fun (sh : Ship) => sh.id == i) hfind
    simpa using this
  have hinj := List.inj_on_of_nodup_map hnd
  exact hinj hmem hmem2 (by rw [beq_iff_eq.mp hid, beq_iff_eq.mp hid2])

theorem goodShips_map (ships : List Ship) (f : Ship → Ship)
    (hs : ∀ sh ∈ ships, ShipInvariant sh ∧ ShipCargoNonneg sh)
    (h : ∀ sh ∈ ships, ShipInvariant sh ∧ ShipCargoNonneg sh →
      ShipInvariant (f sh) ∧ ShipCargoNonneg (f sh)) :
    ∀ sh ∈ ships.map f, ShipInvariant sh ∧ ShipCargoNonneg sh := by
  intro sh hsh
  rcases List.mem_map.mp hsh with ⟨x, hx, rfl⟩
  exact h x hx (hs x hx)

/-! ## Per-operation preservation of the state invariant -/

theorem good_init : GoodState createInitialGameState := by
  unfold GoodState ShipInvariant ShipCargoNonneg
  with_unfolding_all decide

theorem good_load (s : GameState) (i : String) (c : CargoColor) (q : ℕ)
    (hg : GoodState s) : GoodState (loadCargoUpdate s i c (q : ℤ)) := by
  obtain ⟨hships, hports, hnd⟩ := hg
  unfold loadCargoUpdate
  cases hfind : s.ships.find? (fun sh => sh.id == i) with
  | none => exact ⟨hships, hports, hnd⟩
  | some ship =>
    dsimp only
    by_cases hst : ship.status = ShipStatus.docked
    · rw [if_pos hst]
      cases hcp : ship.currentPort with
      | none => exact ⟨hships, hports, hnd⟩
      | some cp =>
        dsimp only
        by_cases h1 : ratFloor ((s.ports cp).cargoStock c) < (q : ℤ)
        · rw [if_pos h1]; exact ⟨hships, hports, hnd⟩
        · rw [if_neg h1]
          by_cases h2 : cargoSum ship.cargo + (q : ℤ) > ship.capacity
          · rw [if_pos h2]; exact ⟨hships, hports, hnd⟩
          · rw [if_neg h2]
            by_cases h3 : c ∉ cargoColors ship.cargo ∧
                (cargoColors ship.cargo).card ≥ ship.maxColors
            · rw [if_pos h3]; exact ⟨hships, hports, hnd⟩
            · rw [if_neg h3]
              refine ⟨?_, ?_, ?_⟩
              · apply goodShips_map _ _ hships
                intro sh hmem hinv
                by_cases hid : (sh.id == i) = true
                · rw [if_pos hid]
                  have heq : sh = ship := mem_id_eq_find s.ships hnd i ship hfind sh hmem hid
                  subst heq
                  exact shipInv_addCargo sh c (q : ℤ) (Int.natCast_nonneg q) hinv h2 h3
                · rw [if_neg hid]
                  exact hinv
              · apply updatePortStock_preserves s.ports cp c _ hports
                have h1le : (q : ℤ) ≤ ratFloor ((s.ports cp).cargoStock c) := not_lt.mp h1
                have hcast : (((q : ℤ) : ℚ)) ≤ ((ratFloor ((s.ports cp).cargoStock c) : ℤ) : ℚ) := by
                  exact_mod_cast h1le
                have := le_trans hcast (ratFloor_cast_le _)
                show 0 ≤ (s.ports cp).cargoStock c - ((q : ℤ) : ℚ)
                linarith
              · apply idsNodup_map _ _ _ hnd
                intro sh
                by_cases hid : (sh.id == i) = true
                · rw [if_pos hid]
                · rw [if_neg hid]
    · rw [if_neg hst]
      exact ⟨hships, hports, hnd⟩

theorem returnCargoShip_id (sh : Ship) (c : CargoColor) :
    (returnCargoShip sh c).id = sh.id := by
  unfold returnCargoShip
  cases sh.cargo.find? (fun x => x.color == c) with
  | none => rfl
  | some e =>
    dsimp only
    split_ifs <;> rfl

theorem good_return (s : GameState) (i : String) (c : CargoColor)
    (hg : GoodState s) : GoodState (returnCargoUpdate s i c).1 := by
  obtain ⟨hships, hports, hnd⟩ := hg
  unfold returnCargoUpdate
  cases hfind : s.ships.find? (fun sh => sh.id == i) with
  | none => exact ⟨hships, hports, hnd⟩
  | some ship =>
    dsimp only
    by_cases hst : ship.status = ShipStatus.docked
    · rw [if_pos hst]
      cases hcp : ship.currentPort with
      | none => exact ⟨hships, hports, hnd⟩
      | some cp =>
        dsimp only
        by_cases ht : (s.ports cp).type ≠ PortType.supply
        · rw [if_pos ht]; exact ⟨hships, hports, hnd⟩
        · rw [if_neg ht]
          by_cases hfc : ship.cargo.find? (fun x => x.color == c) = none
          · rw [if_pos hfc]; exact ⟨hships, hports, hnd⟩
          · rw [if_neg hfc]
            refine ⟨?_, ?_, ?_⟩
            · apply goodShips_map _ _ hships
              intro sh hmem hinv
              by_cases hid : (sh.id == i) = true
              · rw [if_pos hid]
                exact shipInv_returnShip sh c hinv
              · rw [if_neg hid]
                exact hinv
            · apply updatePortStock_preserves s.ports cp c _ hports
              have := (hports cp c).1
              show 0 ≤ (s.ports cp).cargoStock c + 1
              linarith
            · apply idsNodup_map _ _ _ hnd
              intro sh
              by_cases hid : (sh.id == i) = true
              · rw [if_pos hid]
                exact returnCargoShip_id sh c
              · rw [if_neg hid]
    · rw [if_neg hst]
      exact ⟨hships, hports, hnd⟩

theorem good_unload (s : GameState) (i : String)
    (hg : GoodState s) : GoodState (unloadCargoUpdate s i) := by
  obtain ⟨hships, hports, hnd⟩ := hg
  unfold unloadCargoUpdate
  cases hfind : s.ships.find? (fun sh => sh.id == i) with
  | none => exact ⟨hships, hports, hnd⟩
  | some ship =>
    dsimp only
    by_cases hst : ship.status = ShipStatus.docked
    · rw [if_pos hst]
      cases hcp : ship.currentPort with
      | none => exact ⟨hships, hports, hnd⟩
      | some cp =>
        dsimp only
        cases hdc : (s.ports cp).demandColor with
        | none => exact ⟨hships, hports, hnd⟩
        | some dc =>
          dsimp only
          by_cases ht : (s.ports cp).type ≠ PortType.demand
          · rw [if_pos ht]; exact ⟨hships, hports, hnd⟩
          · rw [if_neg ht]
            by_cases hlen : ship.cargo.length = 0
            · rw [if_pos hlen]; exact ⟨hships, hports, hnd⟩
            · rw [if_neg hlen]
              cases hfc : ship.cargo.find? (fun x => x.color == dc) with
              | none => exact ⟨hships, hports, hnd⟩
              | some e =>
                refine ⟨?_, hports, ?_⟩
                · apply goodShips_map _ _ hships
                  intro sh hmem hinv
                  by_cases hid : (sh.id == i) = true
                  · rw [if_pos hid]
                    exact shipInv_filterCargo sh _ hinv
                  · rw [if_neg hid]
                    exact hinv
                · apply idsNodup_map _ _ _ hnd
                  intro sh
                  by_cases hid : (sh.id == i) = true
                  · rw [if_pos hid]
                  · rw [if_neg hid]
    · rw [if_neg hst]
      exact ⟨hships, hports, hnd⟩

theorem good_sail (s : GameState) (i : String) (dest : PortId)
    (hg : GoodState s) : GoodState (sail s i dest).1 := by
  obtain ⟨hships, hports, hnd⟩ := hg
  unfold sail
  cases hfind : s.ships.find? (fun sh => sh.id == i) with
  | none => exact ⟨hships, hports, hnd⟩
  | some ship =>
    dsimp only
    by_cases hst : ship.status ≠ ShipStatus.docked
    · rw [if_pos hst]; exact ⟨hships, hports, hnd⟩
    · rw [if_neg hst]
      cases hcp : ship.currentPort with
      | none => exact ⟨hships, hports, hnd⟩
      | some cp =>
        dsimp only
        by_cases hr : dest ∉ getAdjacentPorts s.routes cp (some ship)
        · rw [if_pos hr]; exact ⟨hships, hports, hnd⟩
        · rw [if_neg hr]
          refine ⟨?_, hports, ?_⟩
          · apply goodShips_map _ _ hships
            intro sh hmem hinv
            by_cases hid : (sh.id == i) = true
            · rw [if_pos hid]
              exact hinv
            · rw [if_neg hid]
              exact hinv
          · apply idsNodup_map _ _ _ hnd
            intro sh
            by_cases hid : (sh.id == i) = true
            · rw [if_pos hid]
            · rw [if_neg hid]

theorem good_boost (s : GameState) (pid : PortId)
    (hg : GoodState s) : GoodState (useSupplyBoost s pid).1 := by
  obtain ⟨hships, hports, hnd⟩ := hg
  unfold useSupplyBoost
  cases hfind : s.items.find? (fun x => x.id == ItemType.supplyBoost) with
  | none => exact ⟨hships, hports, hnd⟩
  | some item =>
    dsimp only
    by_cases hu : item.used = true
    · rw [if_pos hu]; exact ⟨hships, hports, hnd⟩
    · rw [if_neg hu]
      by_cases ht : (s.ports pid).type ≠ PortType.supply
      · rw [if_pos ht]; exact ⟨hships, hports, hnd⟩
      · rw [if_neg ht]
        refine ⟨hships, ?_, hnd⟩
        intro p d
        dsimp only
        by_cases hp : p = pid
        · rw [if_pos hp]
          constructor
          · show 0 ≤ if rateOf (s.ports pid) d > 0 then SUPPLY_STOCK_LIMIT
                else (s.ports pid).cargoStock d
            split_ifs
            · show (0 : ℚ) ≤ 10
              norm_num
            · exact (hports pid d).1
          · exact (hports pid d).2
        · rw [if_neg hp]
          exact hports p d

theorem good_freeze (s : GameState) (hg : GoodState s) :
    GoodState (useDemandFreeze s).1 := by
  obtain ⟨hships, hports, hnd⟩ := hg
  unfold useDemandFreeze
  cases hfind : s.items.find? (fun x => x.id == ItemType.demandFreeze) with
  | none => exact ⟨hships, hports, hnd⟩
  | some item =>
    dsimp only
    by_cases hu : item.used = true
    · rw [if_pos hu]; exact ⟨hships, hports, hnd⟩
    · rw [if_neg hu]
      exact ⟨hships, hports, hnd⟩

theorem good_tele (s : GameState) (i : String) (dest : PortId)
    (hg : GoodState s) : GoodState (useTeleport s i dest).1 := by
  obtain ⟨hships, hports, hnd⟩ := hg
  unfold useTeleport
  cases hfi : s.items.find? (fun x => x.id == ItemType.teleport) with
  | none => exact ⟨hships, hports, hnd⟩
  | some item =>
    dsimp only
    by_cases hu : item.used = true
    · rw [if_pos hu]; exact ⟨hships, hports, hnd⟩
    · rw [if_neg hu]
      cases hfind : s.ships.find? (fun sh => sh.id == i) with
      | none => exact ⟨hships, hports, hnd⟩
      | some ship =>
        refine ⟨?_, hports, ?_⟩
        · apply goodShips_map _ _ hships
          intro sh hmem hinv
          by_cases hid : (sh.id == i) = true
          · rw [if_pos hid]
            exact hinv
          · rw [if_neg hid]
            exact hinv
        · apply idsNodup_map _ _ _ hnd
          intro sh
          by_cases hid : (sh.id == i) = true
          · rw [if_pos hid]
          · rw [if_neg hid]

/-! ## Turn-engine preservation -/

theorem arriveOne_fst (ports : PortId → Port) (t : ℕ) (sh : Ship)
    (invs : List CityInventory) (d : ℤ) (logs : List GameLogEntry) :
    (arriveOne ports t sh invs d logs).1 = shipArrive ports sh := by
  unfold arriveOne
  by_cases h1 : sh.status = ShipStatus.sailing ∧ sh.remainingTurns ≠ none
  · rw [if_pos h1]
    dsimp only
    by_cases h2 : sh.remainingTurns.getD 0 - 1 ≤ 0
    · rw [if_pos h2]
      cases hst : sh.sailingTo with
      | none => rfl
      | some dst =>
        dsimp only
        cases hdc : (ports dst).demandColor with
        | none => rfl
        | some dc =>
          dsimp only
          by_cases h3 : (ports dst).type = PortType.demand ∧ sh.cargo.length > 0
          · rw [if_pos h3]
            cases hfc : sh.cargo.find? (fun x => x.color == dc) with
            | none => rfl
            | some e => rfl
          · rw [if_neg h3]
    · rw [if_neg h2]
  · rw [if_neg h1]
    show sh = shipArrive ports sh
    unfold shipArrive
    rw [if_neg h1]

theorem arrivalPhase_ships (ports : PortId → Port) (t : ℕ) (ships : List Ship) :
    ∀ invs d logs, (arrivalPhase ports t ships invs d logs).1 =
      ships.map (shipArrive ports) := by
  induction ships with
  | nil => intro invs d logs; rfl
  | cons sh rest ih =>
    intro invs d logs
    show (arriveOne ports t sh invs d logs).1 ::
        (arrivalPhase ports t rest _ _ _).1 = _
    rw [arriveOne_fst, ih]
    rfl

theorem shipArrive_inv (ports : PortId → Port) (sh : Ship)
    (h : ShipInvariant sh ∧ ShipCargoNonneg sh) :
    ShipInvariant (shipArrive ports sh) ∧ ShipCargoNonneg (shipArrive ports sh) := by
  unfold shipArrive
  by_cases h1 : sh.status = ShipStatus.sailing ∧ sh.remainingTurns ≠ none
  · rw [if_pos h1]
    dsimp only
    by_cases h2 : sh.remainingTurns.getD 0 - 1 ≤ 0
    · rw [if_pos h2]
      cases hst : sh.sailingTo with
      | none => exact h
      | some dst =>
        dsimp only
        cases hdc : (ports dst).demandColor with
        | none => exact h
        | some dc =>
          dsimp only
          split_ifs with h3
          · exact shipInv_filterCargo sh _ h
          · exact h
    · rw [if_neg h2]
      exact h
  · rw [if_neg h1]
    exact h

theorem shipArrive_id (ports : PortId → Port) (sh : Ship) :
    (shipArrive ports sh).id = sh.id := by
  unfold shipArrive
  by_cases h1 : sh.status = ShipStatus.sailing ∧ sh.remainingTurns ≠ none
  · rw [if_pos h1]
    dsimp only
    by_cases h2 : sh.remainingTurns.getD 0 - 1 ≤ 0
    · rw [if_pos h2]
      cases hst : sh.sailingTo with
      | none => rfl
      | some dst =>
        dsimp only
        cases hdc : (ports dst).demandColor with
        | none => rfl
        | some dc =>
          dsimp only
          split_ifs <;> rfl
    · rw [if_neg h2]
  · rw [if_neg h1]

theorem good_production (ports : PortId → Port)
    (hp : ∀ p c, 0 ≤ (ports p).cargoStock c ∧ 0 ≤ rateOf (ports p) c) :
    ∀ p c, 0 ≤ ((productionPhase ports) p).cargoStock c ∧
      0 ≤ rateOf ((productionPhase ports) p) c := by
  intro p c
  unfold productionPhase
  dsimp only
  cases hr : (ports p).supplyPerTurn with
  | none => exact hp p c
  | some rate =>
    dsimp only
    split_ifs with ht
    · constructor
      · show 0 ≤ ratMin ((ports p).cargoStock c + rate c) SUPPLY_STOCK_LIMIT
        apply ratMin_nonneg
        · have h1 := (hp p c).1
          have h2 := (hp p c).2
          have hre : rateOf (ports p) c = rate c := by
            unfold rateOf
            rw [hr]
          rw [hre] at h2
          linarith
        · show (0 : ℚ) ≤ 10
          norm_num
      · show 0 ≤ rate c
        have h2 := (hp p c).2
        have hre : rateOf (ports p) c = rate c := by
          unfold rateOf
          rw [hr]
        rw [hre] at h2
        exact h2
    · exact hp p c

theorem good_next (s : GameState) (hg : GoodState s) :
    GoodState (nextTurnState s) := by
  obtain ⟨hships, hports, hnd⟩ := hg
  unfold nextTurnState
  by_cases hp : s.status ≠ GameStatus.playing
  · rw [if_pos hp]
    exact ⟨hships, hports, hnd⟩
  · rw [if_neg hp]
    have hshipsNew : ∀ invs dlogs,
        ∀ sh ∈ (arrivalPhase s.ports s.turn s.ships invs 0 dlogs).1,
          ShipInvariant sh ∧ ShipCargoNonneg sh := by
      intro invs dlogs
      rw [arrivalPhase_ships]
      exact goodShips_map _ _ hships (fun sh hm hi => shipArrive_inv s.ports sh hi)
    have hndNew : ∀ invs dlogs,
        (((arrivalPhase s.ports s.turn s.ships invs 0 dlogs).1).map
          (fun sh => sh.id)).Nodup := by
      intro invs dlogs
      rw [arrivalPhase_ships]
      exact idsNodup_map _ _ (fun sh => shipArrive_id s.ports sh) hnd
    have hportsNew := good_production s.ports hports
    by_cases hfz : ¬s.demandFrozenThisTurn = true
    · rw [if_pos hfz]
      dsimp only
      cases hdp : demandPhase s.turn s.ports s.cityInventories with
      | fail invs dlogs =>
        exact ⟨hships, hports, hnd⟩
      | ok invs dlogs =>
        dsimp only
        split_ifs <;> exact ⟨hshipsNew _ _, hportsNew, hndNew _ _⟩
    · rw [if_neg hfz]
      dsimp only
      split_ifs <;> exact ⟨hshipsNew _ _, hportsNew, hndNew _ _⟩

/-! ## Reachability carries the invariant -/

theorem reachable_good (st : GameState × List GameState) (h : Reachable st) :
    GoodPair st := by
  induction h with
  | init => exact ⟨good_init, fun t ht => absurd ht (List.not_mem_nil t)⟩
  | load st i c q hr ih => exact ⟨good_load st.1 i c q ih.1, ih.2⟩
  | ret st i c hr ih => exact ⟨good_return st.1 i c ih.1, ih.2⟩
  | unload st i hr ih => exact ⟨good_unload st.1 i ih.1, ih.2⟩
  | sailStep st i d hr ih => exact ⟨good_sail st.1 i d ih.1, ih.2⟩
  | next st hr ih =>
    refine ⟨good_next st.1 ih.1, ?_⟩
    intro t ht
    rcases List.mem_append.mp ht with h1 | h2
    · exact ih.2 t h1
    · have : t = st.1 := by simpa using h2
      rw [this]
      exact ih.1
  | undo st hr ih =>
    unfold undoTurn
    cases hl : st.2.getLast? with
    | none => exact ih
    | some prevState =>
      dsimp only
      constructor
      · have hx : prevState ∈ st.2.getLast? := by
          rw [hl]
          rfl
        rcases List.mem_getLast?_eq_getLast hx with ⟨hne, heq⟩
        have hmem : prevState ∈ st.2 := by
          rw [heq]
          exact List.getLast_mem hne
        have hgp := ih.2 prevState hmem
        exact ⟨hgp.1, hgp.2.1, hgp.2.2⟩
      · intro t ht
        exact ih.2 t (List.dropLast_sublist st.2 |>.subset ht)
  | reset st hr ih => exact ⟨good_init, fun t ht => absurd ht (List.not_mem_nil t)⟩
  | boost st pid hr ih => exact ⟨good_boost st.1 pid ih.1, ih.2⟩
  | freeze st hr ih => exact ⟨good_freeze st.1 ih.1, ih.2⟩
  | tele st i d hr ih => exact ⟨good_tele st.1 i d ih.1, ih.2⟩

/-- Claim C9: in every reachable configuration, every ship's total cargo is
within its capacity and the number of distinct colors aboard is within its
color limit; every engine operation (each constructor of `Reachable`: load,
return, unload, sail, advance, undo, reset and the three items) preserves
this. -/
theorem c9_capacity_invariant (st : GameState × List GameState)
    (h : Reachable st) :
    ∀ sh ∈ st.1.ships, cargoSum sh.cargo ≤ sh.capacity ∧
      (cargoColors sh.cargo).card ≤ sh.maxColors := by
  intro sh hsh
  exact ((reachable_good st h).1.1 sh hsh).1

/-- Witness for C9 at the fresh session's large ship: empty manifest against
capacity 24 and color limit 2. -/
theorem c9_capacity_invariant_witness :
    cargoSum ([] : List ShipCargo) ≤ (24 : ℤ) ∧
      (cargoColors ([] : List ShipCargo)).card ≤ 2 :=
  c9_capacity_invariant (createInitialGameState, []) Reachable.init
    { id := "large", type := .large, name := "大型船", capacity := 24, speed := 1,
      maxColors := 2, status := .docked, currentPort := some .TKO, cargo := [] }
    (by decide)

/-- Claim C2 (counterexample): a reachable play (sail the small ship to
Indonesia, load one red unit, let production clamp the stock at the engine's
cap 10 for eight turns, then return the unit) leaves Indonesia with red
stock 11, above the configured cap `SUPPLY_STOCK_LIMITS IDN = 10` — so a
reachable supply-port stock exceeds its port cap. -/
theorem c2_stock_cap_counterexample :
    Reachable trace12 ∧
      (trace12.1.ports PortId.IDN).cargoStock CargoColor.red = 11 ∧
      SUPPLY_STOCK_LIMITS PortId.IDN = some 10 ∧
      ¬((trace12.1.ports PortId.IDN).cargoStock CargoColor.red ≤ 10) := by
  have h0 : Reachable trace0 := Reachable.init
  have h1 : Reachable trace1 := Reachable.sailStep trace0 "small" PortId.IDN h0
  have h2 : Reachable trace2 := Reachable.next trace1 h1
  have h3 : Reachable trace3 := Reachable.load trace2 "small" CargoColor.red 1 h2
  have h11 : Reachable trace11 :=
    Reachable.next _ (Reachable.next _ (Reachable.next _ (Reachable.next _
      (Reachable.next _ (Reachable.next _ (Reachable.next _
        (Reachable.next trace3 h3)))))))
  refine ⟨Reachable.ret trace11 "small" CargoColor.red h11, ?_, rfl, ?_⟩
  · with_unfolding_all rfl
  · with_unfolding_all decide

theorem demandPhase_no_fail (t : ℕ) (ports : PortId → Port)
    (invs : List CityInventory)
    (h : ∀ inv ∈ invs, ¬(inv.stock - getDemandForTurn t inv.portId < 0)) :
    ∃ invs2 logs2, demandPhase t ports invs = .ok invs2 logs2 := by
  induction invs with
  | nil => exact ⟨[], [], rfl⟩
  | cons inv rest ih =>
    have hinv := h inv (List.mem_cons_self inv rest)
    unfold demandPhase
    dsimp only
    rw [if_neg hinv]
    rcases ih (fun x hx => h x (List.mem_cons_of_mem inv hx)) with ⟨i2, l2, heq⟩
    rw [heq]
    exact ⟨_, _, rfl⟩

theorem nextTurnState_ports_ok (s : GameState)
    (hp : s.status = GameStatus.playing)
    (hd : s.demandFrozenThisTurn = true ∨
      ∀ inv ∈ s.cityInventories, ¬(inv.stock - getDemandForTurn s.turn inv.portId < 0)) :
    (nextTurnState s).ports = productionPhase s.ports := by
  unfold nextTurnState
  rw [if_neg (by simp [hp])]
  by_cases hfz : ¬s.demandFrozenThisTurn = true
  · rw [if_pos hfz]
    dsimp only
    have hok : ∀ inv ∈ s.cityInventories,
        ¬(inv.stock - getDemandForTurn s.turn inv.portId < 0) := by
      rcases hd with hfz2 | hok
      · exact absurd hfz2 hfz
      · exact hok
    rcases demandPhase_no_fail s.turn s.ports s.cityInventories hok with ⟨i2, l2, heq⟩
    rw [heq]
    dsimp only
    split_ifs <;> rfl
  · rw [if_neg hfz]
    dsimp only
    split_ifs <;> rfl

/-- Claim C2 (amended): the production phase of a turn that passes the demand
phase adds each producing supply port's per-color rate to its stock and
clamps to the engine's uniform cap `SUPPLY_STOCK_LIMIT = 10` — the same for
every port; the per-group `SUPPLY_STOCK_LIMITS` table (6/8/10) is not
consulted by the turn engine. Consequently, immediately after the production
phase every producing supply port's per-color stock is at most 10, and in
every reachable configuration every port's per-color stock is nonnegative.
The original claim's per-port reachable upper bound fails: `returnCargo` can
push a full stock above the cap (see the counterexample). -/
theorem c2_production_clamp_amended :
    (∀ s : GameState, s.status = GameStatus.playing →
      (s.demandFrozenThisTurn = true ∨
        ∀ inv ∈ s.cityInventories, ¬(inv.stock - getDemandForTurn s.turn inv.portId < 0)) →
      ∀ p r, (s.ports p).supplyPerTurn = some r → (s.ports p).type = PortType.supply →
        ∀ c, ((nextTurnState s).ports p).cargoStock c =
            ratMin ((s.ports p).cargoStock c + r c) SUPPLY_STOCK_LIMIT ∧
          ((nextTurnState s).ports p).cargoStock c ≤ SUPPLY_STOCK_LIMIT) ∧
    (∀ st, Reachable st → ∀ p c, 0 ≤ (st.1.ports p).cargoStock c) := by
  constructor
  · intro s hp hd p r hr ht c
    have hports := nextTurnState_ports_ok s hp hd
    rw [hports]
    have hval : (productionPhase s.ports p).cargoStock c =
        ratMin ((s.ports p).cargoStock c + r c) SUPPLY_STOCK_LIMIT := by
      unfold productionPhase
      dsimp only
      rw [hr]
      dsimp only
      rw [if_pos ht]
    rw [hval]
    exact ⟨rfl, ratMin_le_right _ _⟩
  · intro st h p c
    exact ((reachable_good st h).1.2.1 p c).1

/-- Witness for the amended C2: the first turn of the fresh session clamps
Indonesia's red stock to `min (2 + 1) 10 = 3 ≤ 10`, and the fresh session's
stocks are nonnegative. -/
theorem c2_production_clamp_amended_witness :
    ((nextTurnState createInitialGameState).ports PortId.IDN).cargoStock CargoColor.red ≤
        SUPPLY_STOCK_LIMIT ∧
      0 ≤ (createInitialGameState.ports PortId.OKN).cargoStock CargoColor.blue := by
  constructor
  · exact (c2_production_clamp_amended.1 createInitialGameState rfl
      (Or.inr (by with_unfolding_all decide)) PortId.IDN (cMap 1 0.5 0 0) rfl rfl
      CargoColor.red).2
  · exact c2_production_clamp_amended.2 (createInitialGameState, []) Reachable.init
      PortId.OKN CargoColor.blue

/-! ## Turn abort on demand failure (claim C4) -/

theorem demandPhase_fail_spec (t : ℕ) (ports : PortId → Port)
    (invs : List CityInventory)
    (hfail : ∃ inv ∈ invs, inv.stock - getDemandForTurn t inv.portId < 0) :
    ∃ invs2 logs2, demandPhase t ports invs = .fail invs2 logs2 ∧
      ∃ p, firstFailingPort t invs = some p ∧
        gameOverLogEntry t ((ports p).nameJp) ∈ logs2 := by
  induction invs with
  | nil =>
    rcases hfail with ⟨inv, hmem, _⟩
    exact absurd hmem (List.not_mem_nil inv)
  | cons inv rest ih =>
    by_cases h1 : inv.stock - getDemandForTurn t inv.portId < 0
    · refine ⟨{ inv with stock := inv.stock - getDemandForTurn t inv.portId } :: rest,
        [gameOverLogEntry t ((ports inv.portId).nameJp)], ?_, inv.portId, ?_, ?_⟩
      · unfold demandPhase
        dsimp only
        rw [if_pos h1]
        rfl
      · unfold firstFailingPort
        rw [if_pos h1]
      · exact List.mem_singleton.mpr rfl
    · have hfail2 : ∃ x ∈ rest, x.stock - getDemandForTurn t x.portId < 0 := by
        rcases hfail with ⟨x, hx, hlt⟩
        rcases List.mem_cons.mp hx with hx1 | hx2
        · exact absurd (hx1 ▸ hlt) h1
        · exact ⟨x, hx2, hlt⟩
      rcases ih hfail2 with ⟨i2, l2, heq, p, hfp, hmem⟩
      refine ⟨{ inv with stock := inv.stock - getDemandForTurn t inv.portId } :: i2,
        (if inv.stock - getDemandForTurn t inv.portId ≤ 5 then
          [⟨t, "警告: " ++ (ports inv.portId).nameJp ++ "の在庫が残り" ++
            toString (inv.stock - getDemandForTurn t inv.portId) ++ "です！",
            LogType.warning⟩]
         else []) ++ l2, ?_, p, ?_, ?_⟩
      · unfold demandPhase
        dsimp only
        rw [if_neg h1, heq]
      · unfold firstFailingPort
        rw [if_neg h1]
        exact hfp
      · exact List.mem_append.mpr (Or.inr hmem)

/-- Claim C4: when `nextTurn` runs in a playing state with the freeze flag
down and some city inventory would drop below zero under this turn's demand,
the resulting state is `gameover` with a danger log naming the first failing
port, and no later phase of the turn runs: the turn counter, ports (hence
production), ships (hence arrivals) and score are all unchanged. -/
theorem c4_gameover_halts_turn (s : GameState)
    (hp : s.status = GameStatus.playing)
    (hf : s.demandFrozenThisTurn = false)
    (hfail : ∃ inv ∈ s.cityInventories,
      inv.stock - getDemandForTurn s.turn inv.portId < 0) :
    (nextTurnState s).status = GameStatus.gameover ∧
    (nextTurnState s).turn = s.turn ∧
    (nextTurnState s).ports = s.ports ∧
    (nextTurnState s).ships = s.ships ∧
    (nextTurnState s).score = s.score ∧
    ∃ p, firstFailingPort s.turn s.cityInventories = some p ∧
      gameOverLogEntry s.turn ((s.ports p).nameJp) ∈ (nextTurnState s).logs := by
  rcases demandPhase_fail_spec s.turn s.ports s.cityInventories hfail with
    ⟨i2, l2, heq, p, hfp, hmem⟩
  have hns : nextTurnState s =
      { s with
        status := GameStatus.gameover
        cityInventories := i2
        logs := s.logs ++ l2 } := by
    unfold nextTurnState
    rw [if_neg (by simp [hp]), if_pos (by simp [hf])]
    dsimp only
    rw [heq]
  rw [hns]
  exact ⟨rfl, rfl, rfl, rfl, rfl, p, hfp, List.mem_append.mpr (Or.inr hmem)⟩

/-- Witness for C4 at a concrete input: Tokyo at stock 1 against a per-turn
demand of 2 on turn 1 ends the session immediately. -/
theorem c4_gameover_halts_turn_witness :
    ({ createInitialGameState with
        cityInventories := [⟨PortId.TKO, CargoColor.red, 1⟩] } : GameState).status =
        GameStatus.playing ∧
      (nextTurnState { createInitialGameState with
        cityInventories := [⟨PortId.TKO, CargoColor.red, 1⟩] }).status =
        GameStatus.gameover ∧
      (nextTurnState { createInitialGameState with
        cityInventories := [⟨PortId.TKO, CargoColor.red, 1⟩] }).turn = 1 := by
  have h := c4_gameover_halts_turn
    { createInitialGameState with cityInventories := [⟨PortId.TKO, CargoColor.red, 1⟩] }
    rfl rfl
    ⟨⟨PortId.TKO, CargoColor.red, 1⟩, List.mem_singleton.mpr rfl, by decide⟩
  exact ⟨rfl, h.1, h.2.1⟩

/-! ## Load rules (claim C5) -/

theorem loadCargoUpdate_fail (s : GameState) (shipId : String) (color : CargoColor)
    (qty : ℤ) (ship : Ship) (cp : PortId)
    (hfind : s.ships.find? (fun sh => sh.id == shipId) = some ship)
    (hdock : ship.status = ShipStatus.docked)
    (hcp : ship.currentPort = some cp)
    (hcond : ratFloor ((s.ports cp).cargoStock color) < qty ∨
      cargoSum ship.cargo + qty > ship.capacity ∨
      (color ∉ cargoColors ship.cargo ∧ (cargoColors ship.cargo).card ≥ ship.maxColors)) :
    loadCargoUpdate s shipId color qty = s := by
  unfold loadCargoUpdate
  rw [hfind]
  dsimp only
  rw [if_pos hdock, hcp]
  dsimp only
  rcases hcond with h1 | h2 | h3
  · rw [if_pos h1]
  · by_cases h1 : ratFloor ((s.ports cp).cargoStock color) < qty
    · rw [if_pos h1]
    · rw [if_neg h1, if_pos h2]
  · by_cases h1 : ratFloor ((s.ports cp).cargoStock color) < qty
    · rw [if_pos h1]
    · rw [if_neg h1]
      by_cases h2 : cargoSum ship.cargo + qty > ship.capacity
      · rw [if_pos h2]
      · rw [if_neg h2, if_pos h3]

theorem loadCargoUpdate_success (s : GameState) (shipId : String) (color : CargoColor)
    (qty : ℤ) (ship : Ship) (cp : PortId)
    (hfind : s.ships.find? (fun sh => sh.id == shipId) = some ship)
    (hdock : ship.status = ShipStatus.docked)
    (hcp : ship.currentPort = some cp)
    (h1 : ¬ratFloor ((s.ports cp).cargoStock color) < qty)
    (h2 : ¬cargoSum ship.cargo + qty > ship.capacity)
    (h3 : ¬(color ∉ cargoColors ship.cargo ∧ (cargoColors ship.cargo).card ≥ ship.maxColors)) :
    loadCargoUpdate s shipId color qty =
      { s with
        ports := updatePortStock s.ports cp color (fun x => x - qty)
        ships := s.ships.map (fun sh =>
          if sh.id == shipId then { sh with cargo := addCargo sh.cargo color qty }
          else sh)
        logs := s.logs ++ [loadLogEntry s.turn ship.name color qty] } := by
  unfold loadCargoUpdate
  rw [hfind]
  dsimp only
  rw [if_pos hdock, hcp]
  dsimp only
  rw [if_neg h1, if_neg h2, if_neg h3]
  rfl

/-- Claim C5: a load on a docked ship fails silently — the state is returned
unchanged — when the integer floor of the port's stock of the color is below
the requested quantity, when the current total cargo plus the quantity
exceeds the capacity, or when the color is new and the ship already carries
`maxColors` distinct colors; otherwise the port's stock of the color drops by
the quantity (fractional remainder staying on the port) and the ship's
manifest entry for the color is bumped or created, with a log appended. -/
theorem c5_load_rules (s : GameState) (shipId : String) (color : CargoColor)
    (qty : ℤ) (ship : Ship) (cp : PortId)
    (hfind : s.ships.find? (fun sh => sh.id == shipId) = some ship)
    (hdock : ship.status = ShipStatus.docked)
    (hcp : ship.currentPort = some cp) :
    ((ratFloor ((s.ports cp).cargoStock color) < qty ∨
        cargoSum ship.cargo + qty > ship.capacity ∨
        (color ∉ cargoColors ship.cargo ∧ (cargoColors ship.cargo).card ≥ ship.maxColors)) →
      loadCargoUpdate s shipId color qty = s) ∧
    (¬ratFloor ((s.ports cp).cargoStock color) < qty →
      ¬cargoSum ship.cargo + qty > ship.capacity →
      ¬(color ∉ cargoColors ship.cargo ∧ (cargoColors ship.cargo).card ≥ ship.maxColors) →
      loadCargoUpdate s shipId color qty =
        { s with
          ports := updatePortStock s.ports cp color (fun x => x - qty)
          ships := s.ships.map (fun sh =>
            if sh.id == shipId then { sh with cargo := addCargo sh.cargo color qty }
            else sh)
          logs := s.logs ++ [loadLogEntry s.turn ship.name color qty] }) :=
  ⟨fun hcond => loadCargoUpdate_fail s shipId color qty ship cp hfind hdock hcp hcond,
    fun h1 h2 h3 => loadCargoUpdate_success s shipId color qty ship cp hfind hdock hcp h1 h2 h3⟩

/-- Witness for C5 at a concrete input: the small ship docked at Miyazaki
cannot load a unit of red, because the port's red stock is 0 and
`floor 0 = 0 < 1`; the state is unchanged. -/
theorem c5_load_rules_witness :
    loadCargoUpdate createInitialGameState "small" CargoColor.red 1 =
      createInitialGameState :=
  (c5_load_rules createInitialGameState "small" CargoColor.red 1
      { id := "small", type := .small, name := "小型船", capacity := 12, speed := 3,
        maxColors := 1, status := .docked, currentPort := some .MYZ, cargo := [] }
      PortId.MYZ (by decide) rfl rfl).1
    (Or.inl (by with_unfolding_all decide))

/-! ## Unload rules (claim C6) -/

/-- Claim C6: a manual unload on a ship docked at a demand port moves the
whole manifest entry of the port's consumed color into that port's city
inventory, removes the entry from the ship, credits the score by exactly that
quantity and leaves every other color aboard; with no matching entry aboard
it is a no-op, not an error. -/
theorem c6_unload_rules (s : GameState) (shipId : String) (ship : Ship) (cp : PortId)
    (dc : CargoColor)
    (hfind : s.ships.find? (fun sh => sh.id == shipId) = some ship)
    (hdock : ship.status = ShipStatus.docked)
    (hcp : ship.currentPort = some cp)
    (hdc : (s.ports cp).demandColor = some dc)
    (htype : (s.ports cp).type = PortType.demand) :
    (∀ e, ship.cargo.find? (fun c => c.color == dc) = some e →
      unloadCargoUpdate s shipId =
        { s with
          cityInventories := s.cityInventories.map (fun inv =>
            if inv.portId ≠ cp ∨ inv.color ≠ dc then inv
            else { inv with stock := inv.stock + e.quantity })
          ships := s.ships.map (fun sh =>
            if sh.id == shipId then
              { sh with cargo := sh.cargo.filter (fun c => ¬(c.color = dc)) }
            else sh)
          score := s.score + e.quantity
          logs := s.logs ++
            [unloadLogEntry s.turn ship.name ((s.ports cp).nameJp) e.quantity] }) ∧
    (ship.cargo.find? (fun c => c.color == dc) = none →
      unloadCargoUpdate s shipId = s) := by
  constructor
  · intro e he
    unfold unloadCargoUpdate
    rw [hfind]
    dsimp only
    rw [if_pos hdock, hcp]
    dsimp only
    rw [hdc]
    dsimp only
    rw [if_neg (by simp [htype])]
    have hlen : ¬ship.cargo.length = 0 := by
      intro h0
      rw [List.eq_nil_of_length_eq_zero h0] at he
      simp at he
    rw [if_neg hlen, he]
    rfl
  · intro he
    unfold unloadCargoUpdate
    rw [hfind]
    dsimp only
    rw [if_pos hdock, hcp]
    dsimp only
    rw [hdc]
    dsimp only
    rw [if_neg (by simp [htype])]
    by_cases hlen : ship.cargo.length = 0
    · rw [if_pos hlen]
    · rw [if_neg hlen, he]

/-- Witness for C6 at a concrete input: the small ship docked at Miyazaki
(demand color yellow) with one unit of yellow aboard unloads it — the city
stock rises from 20 to 21, the score rises by 1, and the manifest empties. -/
theorem c6_unload_rules_witness :
    (unloadCargoUpdate
        { createInitialGameState with
          ships := [{ id := "small", type := .small, name := "小型船", capacity := 12,
                      speed := 3, maxColors := 1, status := .docked,
                      currentPort := some .MYZ,
                      cargo := [⟨CargoColor.yellow, 1⟩] }] } "small").score = 1 ∧
    (unloadCargoUpdate
        { createInitialGameState with
          ships := [{ id := "small", type := .small, name := "小型船", capacity := 12,
                      speed := 3, maxColors := 1, status := .docked,
                      currentPort := some .MYZ,
                      cargo := [⟨CargoColor.yellow, 1⟩] }] } "small").cityInventories =
      [⟨.TKO, .red, 20⟩, ⟨.SAP, .blue, 20⟩, ⟨.MYZ, .yellow, 21⟩, ⟨.KYT, .green, 20⟩] ∧
    (unloadCargoUpdate
        { createInitialGameState with
          ships := [{ id := "small", type := .small, name := "小型船", capacity := 12,
                      speed := 3, maxColors := 1, status := .docked,
                      currentPort := some .MYZ,
                      cargo := [⟨CargoColor.yellow, 1⟩] }] } "small").ships =
      [{ id := "small", type := .small, name := "小型船", capacity := 12,
         speed := 3, maxColors := 1, status := .docked, currentPort := some .MYZ,
         cargo := [] }] := by
  have h := (c6_unload_rules
      { createInitialGameState with
        ships := [{ id := "small", type := .small, name := "小型船", capacity := 12,
                    speed := 3, maxColors := 1, status := .docked,
                    currentPort := some .MYZ,
                    cargo := [⟨CargoColor.yellow, 1⟩] }] }
      "small"
      { id := "small", type := .small, name := "小型船", capacity := 12,
        speed := 3, maxColors := 1, status := .docked, currentPort := some .MYZ,
        cargo := [⟨CargoColor.yellow, 1⟩] }
      PortId.MYZ CargoColor.yellow (by decide) rfl rfl rfl rfl).1
    ⟨CargoColor.yellow, 1⟩ (by decide)
  rw [h]
  refine ⟨by decide, by decide, by decide⟩

/-! ## Sailing rules (claim C7) -/

theorem find?_map_of_pres {α : Type} (l : List α) (f : α → α) (p : α → Bool)
    (hf : ∀ x, p (f x) = p x) :
    (l.map f).find? p = (l.find? p).map f := by
  induction l with
  | nil => rfl
  | cons a t ih =>
    rw [List.map_cons]
    by_cases h : p a = true
    · rw [List.find?_cons_of_pos _ (by rw [hf a]; exact h), List.find?_cons_of_pos _ h]
      rfl
    · rw [List.find?_cons_of_neg _ (by rw [hf a]; exact h),
        List.find?_cons_of_neg _ h, ih]

theorem nextTurnState_ships_ok (s : GameState)
    (hp : s.status = GameStatus.playing)
    (hd : s.demandFrozenThisTurn = true ∨
      ∀ inv ∈ s.cityInventories, ¬(inv.stock - getDemandForTurn s.turn inv.portId < 0)) :
    (nextTurnState s).ships = s.ships.map (shipArrive s.ports) := by
  unfold nextTurnState
  rw [if_neg (by simp [hp])]
  by_cases hfz : ¬s.demandFrozenThisTurn = true
  · rw [if_pos hfz]
    dsimp only
    have hok : ∀ inv ∈ s.cityInventories,
        ¬(inv.stock - getDemandForTurn s.turn inv.portId < 0) := by
      rcases hd with hfz2 | hok
      · exact absurd hfz2 hfz
      · exact hok
    rcases demandPhase_no_fail s.turn s.ports s.cityInventories hok with ⟨i2, l2, heq⟩
    rw [heq]
    dsimp only
    split_ifs <;> exact arrivalPhase_ships s.ports s.turn s.ships i2 0 l2
  · rw [if_neg hfz]
    dsimp only
    split_ifs <;>
      exact arrivalPhase_ships s.ports s.turn s.ships s.cityInventories 0
        [⟨s.turn, "消費抑制により需要消費が停止しました", LogType.success⟩]

theorem shipArrive_docked (ports : PortId → Port) (sh : Ship) (dst : PortId)
    (hst : sh.status = ShipStatus.sailing)
    (hrt : sh.remainingTurns = some 1)
    (hto : sh.sailingTo = some dst) :
    (shipArrive ports sh).status = ShipStatus.docked ∧
      (shipArrive ports sh).currentPort = some dst := by
  unfold shipArrive
  rw [if_pos ⟨hst, by rw [hrt]; exact Option.some_ne_none 1⟩]
  dsimp only
  rw [if_pos (by rw [hrt]; decide), hto]
  dsimp only
  cases hdc : (ports dst).demandColor with
  | none => exact ⟨rfl, rfl⟩
  | some dc =>
    dsimp only
    split_ifs <;> exact ⟨rfl, rfl⟩

/-- Claim C7: `sail` succeeds exactly when the ship is docked and the
destination lies in the speed-bounded reachability set of its current port;
on success the ship starts sailing with remaining turns fixed at 1 regardless
of how many edges the move covers, so after one `nextTurn` that passes the
demand phase the ship is docked at the destination. -/
theorem c7_sail_rules (s : GameState) (shipId : String) (dest : PortId) (ship : Ship)
    (hfind : s.ships.find? (fun sh => sh.id == shipId) = some ship) :
    ((sail s shipId dest).2 = true ↔
      ship.status = ShipStatus.docked ∧
        ∃ cp, ship.currentPort = some cp ∧
          dest ∈ getReachablePorts s.routes cp ship.speed) ∧
    (∀ cp, ship.status = ShipStatus.docked → ship.currentPort = some cp →
      dest ∈ getReachablePorts s.routes cp ship.speed →
      (∃ sh1, (sail s shipId dest).1.ships.find? (fun sh => sh.id == shipId) = some sh1 ∧
          sh1.status = ShipStatus.sailing ∧ sh1.remainingTurns = some 1 ∧
          sh1.sailingTo = some dest) ∧
        ((sail s shipId dest).1.status = GameStatus.playing →
          ((sail s shipId dest).1.demandFrozenThisTurn = true ∨
            ∀ inv ∈ (sail s shipId dest).1.cityInventories,
              ¬(inv.stock - getDemandForTurn (sail s shipId dest).1.turn inv.portId < 0)) →
          ∃ sh2, (nextTurnState (sail s shipId dest).1).ships.find?
              (fun sh => sh.id == shipId) = some sh2 ∧
            sh2.status = ShipStatus.docked ∧ sh2.currentPort = some dest)) := by
  have hid : (ship.id == shipId) = true := by
    have h := List.find?_some hfind
    simpa using h
  have hpres : ∀ x : Ship,
      (((if x.id == shipId then
          { x with
            status := ShipStatus.sailing
            sailingFrom := x.currentPort
            sailingTo := some dest
            currentPort := none
            remainingTurns := some 1
            totalTurns := some 1 }
        else x) : Ship).id == shipId) = (x.id == shipId) := by
    intro x
    by_cases h : (x.id == shipId) = true
    · rw [if_pos h]
    · rw [if_neg h]
  have hsucc : ∀ cp, ship.status = ShipStatus.docked → ship.currentPort = some cp →
      dest ∈ getReachablePorts s.routes cp ship.speed →
      sail s shipId dest =
        ({ s with
            ships := s.ships.map (fun sh =>
              if sh.id == shipId then
                { sh with
                  status := ShipStatus.sailing
                  sailingFrom := sh.currentPort
                  sailingTo := some dest
                  currentPort := none
                  remainingTurns := some 1
                  totalTurns := some 1 }
              else sh)
            logs := s.logs ++
              [⟨s.turn, ship.name ++ "が" ++ (s.ports dest).nameJp ++
                "に向けて出港しました（" ++ toString (1 : ℤ) ++ "ターン）", .info⟩] },
          true) := by
    intro cp hdock hcp hr
    unfold sail
    rw [hfind]
    dsimp only
    rw [if_neg (by simp [hdock]), hcp]
    dsimp only
    rw [if_neg (not_not_intro
      (show dest ∈ getAdjacentPorts s.routes cp (some ship) from hr))]
  constructor
  · constructor
    · intro htrue
      by_cases hdock : ship.status = ShipStatus.docked
      · cases hcp : ship.currentPort with
        | none =>
          unfold sail at htrue
          rw [hfind] at htrue
          dsimp only at htrue
          rw [if_neg (by simp [hdock]), hcp] at htrue
          simp at htrue
        | some cp =>
          by_cases hr : dest ∈ getAdjacentPorts s.routes cp (some ship)
          · exact ⟨hdock, cp, rfl, hr⟩
          · unfold sail at htrue
            rw [hfind] at htrue
            dsimp only at htrue
            rw [if_neg (by simp [hdock]), hcp] at htrue
            dsimp only at htrue
            rw [if_pos hr] at htrue
            simp at htrue
      · unfold sail at htrue
        rw [hfind] at htrue
        dsimp only at htrue
        rw [if_pos hdock] at htrue
        simp at htrue
    · rintro ⟨hdock, cp, hcp, hr⟩
      rw [hsucc cp hdock hcp hr]
  · intro cp hdock hcp hr
    have heq := hsucc cp hdock hcp hr
    constructor
    · refine ⟨{ ship with
          status := ShipStatus.sailing
          sailingFrom := ship.currentPort
          sailingTo := some dest
          currentPort := none
          remainingTurns := some 1
          totalTurns := some 1 }, ?_, rfl, rfl, rfl⟩
      rw [heq]
      dsimp only
      rw [find?_map_of_pres _ _ _ hpres, hfind]
      simp only [Option.map_some']
      rw [if_pos hid]
    · intro hp1 hd1
      have hships2 := nextTurnState_ships_ok (sail s shipId dest).1 hp1 hd1
      rw [hships2, heq]
      dsimp only
      have hpres2 : ∀ x : Ship,
          ((shipArrive s.ports x).id == shipId) = (x.id == shipId) := by
        intro x
        rw [shipArrive_id]
      rw [find?_map_of_pres _ _ _ hpres2, find?_map_of_pres _ _ _ hpres, hfind]
      simp only [Option.map_some']
      rw [if_pos hid]
      refine ⟨shipArrive s.ports
        { ship with
          status := ShipStatus.sailing
          sailingFrom := ship.currentPort
          sailingTo := some dest
          currentPort := none
          remainingTurns := some 1
          totalTurns := some 1 }, rfl, ?_, ?_⟩
      · exact (shipArrive_docked s.ports _ dest rfl rfl rfl).1
      · exact (shipArrive_docked s.ports _ dest rfl rfl rfl).2

/-- Witness for C7 at a concrete input: the small ship (speed 3) sails from
Miyazaki to Indonesia, whose shortest connecting path has three edges, and is
docked there after the next turn resolves. -/
theorem c7_sail_rules_witness :
    (sail createInitialGameState "small" PortId.IDN).2 = true ∧
    ∃ sh2, (nextTurnState (sail createInitialGameState "small" PortId.IDN).1).ships.find?
        (fun sh => sh.id == "small") = some sh2 ∧
      sh2.status = ShipStatus.docked ∧ sh2.currentPort = some PortId.IDN := by
  have h := c7_sail_rules createInitialGameState "small" PortId.IDN
    { id := "small", type := .small, name := "小型船", capacity := 12, speed := 3,
      maxColors := 1, status := .docked, currentPort := some .MYZ, cargo := [] }
    (by decide)
  have h2 := h.2 PortId.MYZ rfl rfl (by decide)
  exact ⟨h.1.mpr ⟨rfl, PortId.MYZ, rfl, by decide⟩,
    h2.2 (by decide) (Or.inr (by decide))⟩

/-! ## Single-use items (claim C8) -/

theorem useSupplyBoost_of_used (s : GameState) (pid : PortId)
    (h : itemUsed s ItemType.supplyBoost = true) :
    useSupplyBoost s pid = (s, false) := by
  unfold useSupplyBoost
  cases hfi : s.items.find? (fun i => i.id == ItemType.supplyBoost) with
  | none => rfl
  | some item =>
    have hu : item.used = true := by
      unfold itemUsed at h
      rw [hfi] at h
      exact h
    dsimp only
    rw [if_pos hu]

theorem useDemandFreeze_of_used (s : GameState)
    (h : itemUsed s ItemType.demandFreeze = true) :
    useDemandFreeze s = (s, false) := by
  unfold useDemandFreeze
  cases hfi : s.items.find? (fun i => i.id == ItemType.demandFreeze) with
  | none => rfl
  | some item =>
    have hu : item.used = true := by
      unfold itemUsed at h
      rw [hfi] at h
      exact h
    dsimp only
    rw [if_pos hu]

theorem useTeleport_of_used (s : GameState) (shipId : String) (dest : PortId)
    (h : itemUsed s ItemType.teleport = true) :
    useTeleport s shipId dest = (s, false) := by
  unfold useTeleport
  cases hfi : s.items.find? (fun i => i.id == ItemType.teleport) with
  | none => rfl
  | some item =>
    have hu : item.used = true := by
      unfold itemUsed at h
      rw [hfi] at h
      exact h
    dsimp only
    rw [if_pos hu]

theorem itemUsed_map_setUsed (items : List GameItem) (id : ItemType) (item : GameItem)
    (hfi : items.find? (fun i => i.id == id) = some item) :
    (items.map (fun i => if i.id == id then { i with used := true } else i)).find?
        (fun i => i.id == id) = some { item with used := true } := by
  have hpres : ∀ x : GameItem,
      (((if x.id == id then { x with used := true } else x) : GameItem).id == id) =
        (x.id == id) := by
    intro x
    by_cases h : (x.id == id) = true
    · rw [if_pos h]
    · rw [if_neg h]
  rw [find?_map_of_pres _ _ _ hpres, hfi]
  simp only [Option.map_some']
  rw [if_pos (show (item.id == id) = true by simpa using List.find?_some hfi)]

/-- Claim C8 (counterexample): the single-use guarantee is not session-wide.
`nextTurn` pushes the pre-turn snapshot — whose items are still unmarked —
onto the history, so in the session advanceTurn → useDemandFreeze → undo the
restored state has the demand-freeze item unmarked again (it does not stay
marked used), and a second invocation of the same item in the same session
succeeds and re-applies its effect instead of being a no-op. -/
theorem c8_items_single_use_counterexample :
    (useDemandFreeze (nextTurnPair (createInitialGameState, [])).1).2 = true ∧
    itemUsed (useDemandFreeze (nextTurnPair (createInitialGameState, [])).1).1
      ItemType.demandFreeze = true ∧
    (undoTurn ((useDemandFreeze (nextTurnPair (createInitialGameState, [])).1).1,
      (nextTurnPair (createInitialGameState, [])).2)).2 = true ∧
    itemUsed
      (undoTurn ((useDemandFreeze (nextTurnPair (createInitialGameState, [])).1).1,
        (nextTurnPair (createInitialGameState, [])).2)).1.1
      ItemType.demandFreeze = false ∧
    (undoTurn ((useDemandFreeze (nextTurnPair (createInitialGameState, [])).1).1,
      (nextTurnPair (createInitialGameState, [])).2)).1.1.demandFrozenThisTurn = false ∧
    (useDemandFreeze
      (undoTurn ((useDemandFreeze (nextTurnPair (createInitialGameState, [])).1).1,
        (nextTurnPair (createInitialGameState, [])).2)).1.1).2 = true ∧
    (useDemandFreeze
      (undoTurn ((useDemandFreeze (nextTurnPair (createInitialGameState, [])).1).1,
        (nextTurnPair (createInitialGameState, [])).2)).1.1).1.demandFrozenThisTurn =
      true := by
  refine ⟨by decide, by decide, by decide, by decide, by decide, by decide, by decide⟩

/-- Claim C8 (amended): each of the three one-shot items applies its effect
on a first valid invocation and is marked used, and any invocation on a state
whose item is marked used — in particular the immediate second invocation —
is a no-op returning the state unchanged with a `false` flag. The guarantee
is per marked state, not session-wide: `undo` restores the pre-turn
snapshot's item list, unmarking an item used after the push (see the
counterexample). -/
theorem c8_items_single_use_amended :
    (∀ s pid, itemUsed s ItemType.supplyBoost = false →
      (s.ports pid).type = PortType.supply →
      (useSupplyBoost s pid).2 = true ∧
      itemUsed (useSupplyBoost s pid).1 ItemType.supplyBoost = true ∧
      (∀ c, rateOf (s.ports pid) c > 0 →
        ((useSupplyBoost s pid).1.ports pid).cargoStock c = SUPPLY_STOCK_LIMIT) ∧
      (∀ pid2, useSupplyBoost (useSupplyBoost s pid).1 pid2 =
        ((useSupplyBoost s pid).1, false))) ∧
    (∀ s, itemUsed s ItemType.demandFreeze = false →
      (useDemandFreeze s).2 = true ∧
      itemUsed (useDemandFreeze s).1 ItemType.demandFreeze = true ∧
      (useDemandFreeze s).1.demandFrozenThisTurn = true ∧
      useDemandFreeze (useDemandFreeze s).1 = ((useDemandFreeze s).1, false)) ∧
    (∀ s shipId dest ship, itemUsed s ItemType.teleport = false →
      s.ships.find? (fun sh => sh.id == shipId) = some ship →
      (useTeleport s shipId dest).2 = true ∧
      itemUsed (useTeleport s shipId dest).1 ItemType.teleport = true ∧
      (∃ sh1, (useTeleport s shipId dest).1.ships.find?
          (fun sh => sh.id == shipId) = some sh1 ∧
        sh1.status = ShipStatus.docked ∧ sh1.currentPort = some dest) ∧
      (∀ shipId2 dest2, useTeleport (useTeleport s shipId dest).1 shipId2 dest2 =
        ((useTeleport s shipId dest).1, false))) ∧
    (∀ s pid, itemUsed s ItemType.supplyBoost = true →
      useSupplyBoost s pid = (s, false)) ∧
    (∀ s, itemUsed s ItemType.demandFreeze = true →
      useDemandFreeze s = (s, false)) ∧
    (∀ s shipId dest, itemUsed s ItemType.teleport = true →
      useTeleport s shipId dest = (s, false)) := by
  refine ⟨?_, ?_, ?_, useSupplyBoost_of_used, useDemandFreeze_of_used,
    useTeleport_of_used⟩
  · intro s pid hun htype
    cases hfi : s.items.find? (fun i => i.id == ItemType.supplyBoost) with
    | none =>
      exfalso
      unfold itemUsed at hun
      rw [hfi] at hun
      simp at hun
    | some item =>
      have hu : item.used = false := by
        unfold itemUsed at hun
        rw [hfi] at hun
        exact hun
      have heq : useSupplyBoost s pid =
          ({ s with
              ports := fun q =>
                if q = pid then
                  { s.ports pid with
                    cargoStock := fun c =>
                                    if rateOf (s.ports pid) c > 0 then SUPPLY_STOCK_LIMIT
                                    else (s.ports pid).cargoStock c }
                else s.ports q
              items := s.items.map (fun i =>
                if i.id == ItemType.supplyBoost then { i with used := true } else i)
              logs := s.logs ++
                [⟨s.turn, "補給船団により" ++ (s.ports pid).nameJp ++
                  "の在庫が満タンになりました", .success⟩] }, true) := by
        unfold useSupplyBoost
        rw [hfi]
        dsimp only
        rw [if_neg (by simp [hu]), if_neg (by simp [htype])]
      refine ⟨?_, ?_, ?_, ?_⟩
      · rw [heq]
      · rw [heq]
        unfold itemUsed
        dsimp only
        rw [itemUsed_map_setUsed s.items ItemType.supplyBoost item hfi]
      · intro c hrate
        rw [heq]
        dsimp only
        rw [if_pos rfl]
        dsimp only
        rw [if_pos hrate]
      · intro pid2
        apply useSupplyBoost_of_used
        rw [heq]
        unfold itemUsed
        dsimp only
        rw [itemUsed_map_setUsed s.items ItemType.supplyBoost item hfi]
  · intro s hun
    cases hfi : s.items.find? (fun i => i.id == ItemType.demandFreeze) with
    | none =>
      exfalso
      unfold itemUsed at hun
      rw [hfi] at hun
      simp at hun
    | some item =>
      have hu : item.used = false := by
        unfold itemUsed at hun
        rw [hfi] at hun
        exact hun
      have heq : useDemandFreeze s =
          ({ s with
              items := s.items.map (fun i =>
                if i.id == ItemType.demandFreeze then { i with used := true } else i)
              demandFrozenThisTurn := true
              logs := s.logs ++
                [⟨s.turn, "消費抑制を発動！次のターン需要消費が停止します", .success⟩] },
            true) := by
        unfold useDemandFreeze
        rw [hfi]
        dsimp only
        rw [if_neg (by simp [hu])]
      refine ⟨?_, ?_, ?_, ?_⟩
      · rw [heq]
      · rw [heq]
        unfold itemUsed
        dsimp only
        rw [itemUsed_map_setUsed s.items ItemType.demandFreeze item hfi]
      · rw [heq]
      · apply useDemandFreeze_of_used
        rw [heq]
        unfold itemUsed
        dsimp only
        rw [itemUsed_map_setUsed s.items ItemType.demandFreeze item hfi]
  · intro s shipId dest ship hun hfind
    cases hfi : s.items.find? (fun i => i.id == ItemType.teleport) with
    | none =>
      exfalso
      unfold itemUsed at hun
      rw [hfi] at hun
      simp at hun
    | some item =>
      have hu : item.used = false := by
        unfold itemUsed at hun
        rw [hfi] at hun
        exact hun
      have hid : (ship.id == shipId) = true := by
        simpa using List.find?_some hfind
      have heq : useTeleport s shipId dest =
          ({ s with
              ships := s.ships.map (fun sh =>
                if sh.id == shipId then
                  { sh with
                    status := ShipStatus.docked
                    currentPort := some dest
                    sailingFrom := none
                    sailingTo := none
                    remainingTurns := none
                    totalTurns := none }
                else sh)
              items := s.items.map (fun i =>
                if i.id == ItemType.teleport then { i with used := true } else i)
              logs := s.logs ++
                [⟨s.turn, "緊急輸送により" ++ ship.name ++ "が" ++
                  (s.ports dest).nameJp ++ "へ移動しました", .success⟩] }, true) := by
        unfold useTeleport
        rw [hfi]
        dsimp only
        rw [if_neg (by simp [hu]), hfind]
      have hpres3 : ∀ x : Ship,
          (((if x.id == shipId then
              { x with
                status := ShipStatus.docked
                currentPort := some dest
                sailingFrom := none
                sailingTo := none
                remainingTurns := none
                totalTurns := none }
            else x) : Ship).id == shipId) = (x.id == shipId) := by
        intro x
        by_cases h : (x.id == shipId) = true
        · rw [if_pos h]
        · rw [if_neg h]
      refine ⟨?_, ?_, ?_, ?_⟩
      · rw [heq]
      · rw [heq]
        unfold itemUsed
        dsimp only
        rw [itemUsed_map_setUsed s.items ItemType.teleport item hfi]
      · rw [heq]
        dsimp only
        rw [find?_map_of_pres _ _ _ hpres3, hfind]
        simp only [Option.map_some']
        rw [if_pos hid]
        exact ⟨_, rfl, rfl, rfl⟩
      · intro shipId2 dest2
        apply useTeleport_of_used
        rw [heq]
        unfold itemUsed
        dsimp only
        rw [itemUsed_map_setUsed s.items ItemType.teleport item hfi]

/-- Witness for the amended C8 at concrete inputs on the fresh session:
boosting Okinawa, freezing demand and teleporting the small ship to Tokyo
each succeed once, and each immediate second invocation is a no-op reporting
`false`. -/
theorem c8_items_single_use_amended_witness :
    (useSupplyBoost createInitialGameState PortId.OKN).2 = true ∧
    useSupplyBoost (useSupplyBoost createInitialGameState PortId.OKN).1 PortId.OKN =
      ((useSupplyBoost createInitialGameState PortId.OKN).1, false) ∧
    (useDemandFreeze createInitialGameState).2 = true ∧
    useDemandFreeze (useDemandFreeze createInitialGameState).1 =
      ((useDemandFreeze createInitialGameState).1, false) ∧
    (useTeleport createInitialGameState "small" PortId.TKO).2 = true ∧
    useTeleport (useTeleport createInitialGameState "small" PortId.TKO).1 "small"
        PortId.TKO =
      ((useTeleport createInitialGameState "small" PortId.TKO).1, false) := by
  have h1 := c8_items_single_use_amended.1 createInitialGameState PortId.OKN
    (by decide) rfl
  have h2 := c8_items_single_use_amended.2.1 createInitialGameState (by decide)
  have h3 := c8_items_single_use_amended.2.2.1 createInitialGameState "small" PortId.TKO
    { id := "small", type := .small, name := "小型船", capacity := 12, speed := 3,
      maxColors := 1, status := .docked, currentPort := some .MYZ, cargo := [] }
    (by decide) (by decide)
  exact ⟨h1.1, h1.2.2.2 PortId.OKN, h2.1, h2.2.2.2, h3.1, h3.2.2.2 "small" PortId.TKO⟩

/-! ## Transaction flags (claim C10) -/

theorem updatePortStock_self (ports : PortId → Port) (pid : PortId) (c : CargoColor)
    (f : ℚ → ℚ) :
    ((updatePortStock ports pid c f) pid).cargoStock c = f ((ports pid).cargoStock c) := by
  unfold updatePortStock
  dsimp only
  rw [if_pos rfl]
  dsimp only
  rw [if_pos rfl]

/-- Claim C10: the Boolean reported by `loadCargo` does not record whether a
load occurred — outside the 100 ms debounce window (which reports `false` and
changes nothing) it reports `true` unconditionally, even when a domain guard
fails and the updater returns the state unchanged; by contrast `returnCargo`'s
Boolean, outside its 50 ms window, is `true` exactly when the updater's
success flag is, and a `true` updater flag entails that one unit was actually
put back: the docked supply port's stock of the color rose by 1. -/
theorem c10_transaction_flags :
    (∀ now last s shipId color qty, now - last < 100 →
      loadCargo now last s shipId color qty = (s, false, last)) ∧
    (∀ now last s shipId color qty, ¬now - last < 100 →
      (loadCargo now last s shipId color qty).2.1 = true ∧
      (loadCargo now last s shipId color qty).1 = loadCargoUpdate s shipId color qty) ∧
    (∀ now last s shipId color qty ship cp, ¬now - last < 100 →
      s.ships.find? (fun sh => sh.id == shipId) = some ship →
      ship.status = ShipStatus.docked → ship.currentPort = some cp →
      ratFloor ((s.ports cp).cargoStock color) < qty →
      loadCargo now last s shipId color qty = (s, true, now)) ∧
    (∀ now last s shipId color, now - last < 50 →
      returnCargo now last s shipId color = (s, false, last)) ∧
    (∀ now last s shipId color, ¬now - last < 50 →
      ((returnCargo now last s shipId color).2.1 = true ↔
        (returnCargoUpdate s shipId color).2 = true) ∧
      (returnCargo now last s shipId color).1 = (returnCargoUpdate s shipId color).1) ∧
    (∀ s shipId color, (returnCargoUpdate s shipId color).2 = true →
      ∃ ship cp, s.ships.find? (fun sh => sh.id == shipId) = some ship ∧
        ship.status = ShipStatus.docked ∧ ship.currentPort = some cp ∧
        (s.ports cp).type = PortType.supply ∧
        ship.cargo.find? (fun c => c.color == color) ≠ none ∧
        ((returnCargoUpdate s shipId color).1.ports cp).cargoStock color =
          (s.ports cp).cargoStock color + 1) := by
  refine ⟨?_, ?_, ?_, ?_, ?_, ?_⟩
  · intro now last s shipId color qty h
    unfold loadCargo
    rw [if_pos h]
  · intro now last s shipId color qty h
    unfold loadCargo
    rw [if_neg h]
    exact ⟨rfl, rfl⟩
  · intro now last s shipId color qty ship cp h hfind hdock hcp hfl
    unfold loadCargo
    rw [if_neg h,
      loadCargoUpdate_fail s shipId color qty ship cp hfind hdock hcp (Or.inl hfl)]
  · intro now last s shipId color h
    unfold returnCargo
    rw [if_pos h]
  · intro now last s shipId color h
    unfold returnCargo
    rw [if_neg h]
    cases hrc : returnCargoUpdate s shipId color with
    | mk a b =>
      dsimp only
      exact ⟨Iff.rfl, rfl⟩
  · intro s shipId color hflag
    unfold returnCargoUpdate at hflag ⊢
    cases hfind : s.ships.find? (fun sh => sh.id == shipId) with
    | none =>
      rw [hfind] at hflag
      simp at hflag
    | some ship =>
      rw [hfind] at hflag
      dsimp only at hflag
      by_cases hdock : ship.status = ShipStatus.docked
      · rw [if_pos hdock] at hflag
        cases hcp : ship.currentPort with
        | none =>
          rw [hcp] at hflag
          simp at hflag
        | some cp =>
          rw [hcp] at hflag
          dsimp only at hflag
          by_cases htype : (s.ports cp).type ≠ PortType.supply
          · rw [if_pos htype] at hflag
            simp at hflag
          · rw [if_neg htype] at hflag
            by_cases hfc : ship.cargo.find? (fun c => c.color == color) = none
            · rw [if_pos hfc] at hflag
              simp at hflag
            · rw [if_neg hfc] at hflag
              refine ⟨ship, cp, rfl, hdock, hcp, not_not.mp htype, hfc, ?_⟩
              dsimp only
              rw [if_pos hdock, hcp]
              dsimp only
              rw [if_neg htype, if_neg hfc]
              dsimp only
              rw [updatePortStock_self]
      · rw [if_neg hdock] at hflag
        simp at hflag

/-- Witness for C10 at concrete inputs: within the 100 ms window `loadCargo`
reports `false` and changes nothing; outside it, the small ship's doomed
attempt to load a unit of red at Miyazaki (red stock 0) still reports `true`
with the state unchanged; `returnCargo` within its 50 ms window reports
`false`. -/
theorem c10_transaction_flags_witness :
    loadCargo 0 0 createInitialGameState "small" CargoColor.red 1 =
      (createInitialGameState, false, 0) ∧
    loadCargo 200 0 createInitialGameState "small" CargoColor.red 1 =
      (createInitialGameState, true, 200) ∧
    returnCargo 20 0 createInitialGameState "small" CargoColor.red =
      (createInitialGameState, false, 0) := by
  refine ⟨c10_transaction_flags.1 0 0 _ _ _ _ (by decide),
    c10_transaction_flags.2.2.1 200 0 createInitialGameState "small" CargoColor.red 1
      { id := "small", type := .small, name := "小型船", capacity := 12, speed := 3,
        maxColors := 1, status := .docked, currentPort := some .MYZ, cargo := [] }
      PortId.MYZ (by decide) (by decide) rfl rfl (by with_unfolding_all decide),
    c10_transaction_flags.2.2.2.1 20 0 _ _ _ (by decide)⟩

end VesselGame
